import Mathlib

/-!
# Gapless transport of musikcube

A shallow embedding of `src/musikcore/audio/GaplessTransport.cpp`, and of the switch of
transports in `src/musikcore/audio/MasterTransport.cpp`.

* A `Player*` is a `Player` value (an identity plus the immutable url it was
  created for); a nullable pointer is an `Option Player`.
* The member variables of the C++ class are the first seven fields of
  `Transport`.  Three ghost fields are added: `nextId`, the identity that
  `Player::Create` hands out next; `log`, the sequence of every externally
  observable action the transport performed (calls into a player, calls into
  the output device, signals raised, acquisitions and releases of
  `stateMutex`), oldest first; and `raised`, which notes for every stream
  event raised the content of the active slot at that moment.
* `double` values (volume, seconds) are rationals.
* Calls to `musik::debug::info` are not modelled.
-/

namespace GaplessTransport

/-- The `musik::core::sdk::PlaybackState` enumeration. -/
inductive PlaybackState where
  | Stopped
  | Paused
  | Prepared
  | Playing
  deriving DecidableEq, Repr

/-- The `musik::core::sdk::StreamState` enumeration. -/
inductive StreamState where
  | Buffering
  | Buffered
  | Playing
  | AlmostDone
  | Finished
  | OpenFailed
  | Destroyed
  deriving DecidableEq, Repr

/-- The `ITransport::StartMode` enumeration. -/
inductive StartMode where
  | Immediate
  | Wait
  deriving DecidableEq, Repr

/-- The replay gain handed through to `Player::Create`; the transport never inspects it. -/
structure Gain where
  value : ℚ
  deriving DecidableEq, Repr

/-- A playback session: the identity of the `Player` object and the url it was created for
(what `Player::GetUrl` returns). -/
structure Player where
  id : Nat
  url : String
  deriving DecidableEq, Repr

/-- Everything the transport does that is visible outside of it. -/
inductive Effect where
  | lock
  | unlock
  | create (p : Player)
  | detach (p : Player)
  | destroy (p : Player)
  | play (p : Player)
  | setPosition (p : Player) (seconds : ℚ)
  | outputStop
  | outputResume
  | outputPause
  | outputSetVolume (v : ℚ)
  | selectOutput
  | playbackEvent (state : PlaybackState)
  | streamEvent (type : StreamState) (url : String)
  | timeChanged (seconds : ℚ)
  | volumeChanged
  deriving DecidableEq, Repr

/-- The member variables of `GaplessTransport`, followed by the ghost fields `nextId`, `log` and
`raised`. -/
structure Transport where
  volume : ℚ
  playbackState : PlaybackState
  activePlayer : Option Player
  nextPlayer : Option Player
  nextCanStart : Bool
  muted : Bool
  activePlayerState : StreamState
  nextId : Nat
  log : List Effect
  raised : List (StreamState × String × Option Player)

/-- Append one action to the log. -/
def emit (e : Effect) (s : Transport) : Transport :=
  { s with log := s.log ++ [e] }

/-- The constructor `GaplessTransport::GaplessTransport()`.  The initial value of
`activePlayerState` is given in the class declaration, which is not part of the sources at hand,
so it is an argument. -/
def new (activePlayerState : StreamState) : Transport :=
  emit .selectOutput
    { volume := 1
      playbackState := .Stopped
      activePlayer := none
      nextPlayer := none
      nextCanStart := false
      muted := false
      activePlayerState := activePlayerState
      nextId := 0
      log := []
      raised := [] }

/-- Modelled from the spec: `Player::Create`, whose definition is not part of the sources at
hand.  It returns a session for `uri` with an identity no earlier session has; `created = false`
is the case of a null result, which the callers guard against. -/
def Player.Create (uri : String) (created : Bool) (s : Transport) : Option Player × Transport :=
  if created then
    (some ⟨s.nextId, uri⟩,
      { s with nextId := s.nextId + 1, log := s.log ++ [.create ⟨s.nextId, uri⟩] })
  else
    (none, s)

/-- Modelled from the spec: the default `StartMode` of `StartWithPlayer`, declared in
`GaplessTransport.h`. -/
def defaultStartMode : StartMode := .Immediate

/-- `GaplessTransport::GetPlaybackState`. -/
def GetPlaybackState (s : Transport) : PlaybackState × Transport :=
  let s := emit .lock s
  let r := s.playbackState
  (r, emit .unlock s)

/-- `GaplessTransport::GetStreamState`. -/
def GetStreamState (s : Transport) : StreamState × Transport :=
  let s := emit .lock s
  let r := s.activePlayerState
  (r, emit .unlock s)

/-- `GaplessTransport::SetPlaybackState`. -/
def SetPlaybackState (state : PlaybackState) (s : Transport) : Transport :=
  let s := emit .lock s
  let changed := decide (s.playbackState ≠ state)
  let s := { s with playbackState := state }
  let s := emit .unlock s
  if changed then emit (.playbackEvent state) s else s

/-- `GaplessTransport::RaiseStreamEvent`.  Where the signal `StreamEvent` is raised, the ghost
field `raised` notes the content of the active slot at that moment. -/
def RaiseStreamEvent (type : StreamState) (player : Player) (s : Transport) : Transport :=
  let s := emit .lock s
  let eventIsFromActivePlayer := decide (some player = s.activePlayer)
  let s := if eventIsFromActivePlayer then { s with activePlayerState := type } else s
  let s := emit .unlock s
  if eventIsFromActivePlayer then
    emit (.streamEvent type player.url)
      { s with raised := s.raised ++ [(type, player.url, s.activePlayer)] }
  else s

/-- `GaplessTransport::ResetNextPlayer`. -/
def ResetNextPlayer (s : Transport) : Transport :=
  match s.nextPlayer with
  | some p =>
    let s := emit (.detach p) s
    let s := emit (.destroy p) s
    let s := RaiseStreamEvent .Destroyed p s
    { s with nextPlayer := none }
  | none => s

/-- `GaplessTransport::ResetActivePlayer`. -/
def ResetActivePlayer (s : Transport) : Transport :=
  match s.activePlayer with
  | some p =>
    let s := emit (.detach p) s
    let s := emit (.destroy p) s
    let s := RaiseStreamEvent .Destroyed p s
    { s with activePlayer := none }
  | none => s

/-- `GaplessTransport::SetNextCanStart`. -/
def SetNextCanStart (nextCanStart : Bool) (s : Transport) : Transport :=
  let s := emit .lock s
  let s := { s with nextCanStart := nextCanStart }
  emit .unlock s

/-- `GaplessTransport::StopInternal`. -/
def StopInternal (suppressStopEvent stopOutput : Bool) (exclude : Option Player)
    (s : Transport) : Transport :=
  let s :=
    if stopOutput then
      let s := emit .lock s
      let s := ResetNextPlayer s
      let s := if s.activePlayer ≠ exclude then ResetActivePlayer s else s
      let s := emit .unlock s
      emit .outputStop s
    else s
  if !suppressStopEvent then SetPlaybackState .Stopped s else s

/-- `GaplessTransport::StartWithPlayer`.  `getStreamState` answers `Player::GetStreamState`. -/
def StartWithPlayer (getStreamState : Player → StreamState) (newPlayer : Option Player)
    (mode : StartMode) (s : Transport) : Transport :=
  match newPlayer with
  | none => s
  | some np =>
    let s := emit .lock s
    let playingNext := decide (newPlayer = s.nextPlayer)
    let s := if newPlayer ≠ s.nextPlayer then ResetNextPlayer s else s
    let s := ResetActivePlayer s
    let s := { s with nextPlayer := none }
    let s := { s with activePlayer := newPlayer }
    let s := RaiseStreamEvent (getStreamState np) np s
    let s := StopInternal true (!playingNext) newPlayer s
    let s := SetNextCanStart false s
    let s := emit .outputResume s
    let s := if mode = .Immediate then emit (.play np) s else s
    emit .unlock s

/-- `GaplessTransport::PrepareNextTrack`. -/
def PrepareNextTrack (getStreamState : Player → StreamState) (uri : String) (_gain : Gain)
    (created : Bool) (s : Transport) : Transport :=
  let s := emit .lock s
  let s := ResetNextPlayer s
  let s :=
    if uri.length ≠ 0 then
      { (Player.Create uri created s).2 with nextPlayer := (Player.Create uri created s).1 }
    else s
  let startNext := if uri.length ≠ 0 then s.nextCanStart else false
  let s := emit .unlock s
  if startNext then StartWithPlayer getStreamState s.nextPlayer defaultStartMode s else s

/-- `GaplessTransport::Start`. -/
def Start (getStreamState : Player → StreamState) (uri : String) (_gain : Gain)
    (mode : StartMode) (created : Bool) (s : Transport) : Transport :=
  let newPlayer := (Player.Create uri created s).1
  let s := (Player.Create uri created s).2
  StartWithPlayer getStreamState newPlayer mode s

/-- `GaplessTransport::Stop`; the third argument of `StopInternal` defaults to `nullptr`. -/
def Stop (s : Transport) : Transport :=
  StopInternal false true none s

/-- `GaplessTransport::ReloadOutput`. -/
def ReloadOutput (s : Transport) : Transport :=
  let s := Stop s
  let s := emit .selectOutput s
  emit (.outputSetVolume s.volume) s

/-- `GaplessTransport::Uri`. -/
def Uri (s : Transport) : String :=
  match s.activePlayer with
  | some player => player.url
  | none => ""

/-- `GaplessTransport::Pause`. -/
def Pause (s : Transport) : Bool × Transport :=
  let s := emit .outputPause s
  if s.activePlayer.isSome then
    (true, SetPlaybackState .Paused s)
  else
    (false, s)

/-- `GaplessTransport::Resume`. -/
def Resume (s : Transport) : Bool × Transport :=
  let s := emit .outputResume s
  let s := emit .lock s
  let s :=
    match s.activePlayer with
    | some p => emit (.play p) s
    | none => s
  let s := emit .unlock s
  if s.activePlayer.isSome then
    (true, SetPlaybackState .Playing s)
  else
    (false, s)

/-- `GaplessTransport::Position`.  `getPosition` answers `Player::GetPosition`. -/
def Position (getPosition : Player → ℚ) (s : Transport) : ℚ × Transport :=
  let s := emit .lock s
  match s.activePlayer with
  | some p => (getPosition p, emit .unlock s)
  | none => (0, emit .unlock s)

/-- `GaplessTransport::SetPosition`. -/
def SetPosition (seconds : ℚ) (s : Transport) : Transport :=
  let s := emit .lock s
  let s :=
    match s.activePlayer with
    | some p =>
      let s := if s.playbackState ≠ .Playing then SetPlaybackState .Playing s else s
      emit (.setPosition p seconds) s
    | none => s
  let s := emit .unlock s
  if s.activePlayer.isSome then emit (.timeChanged seconds) s else s

/-- `GaplessTransport::GetDuration`.  `getDuration` answers `Player::GetDuration`. -/
def GetDuration (getDuration : Player → ℚ) (s : Transport) : ℚ × Transport :=
  let s := emit .lock s
  match s.activePlayer with
  | some p => (getDuration p, emit .unlock s)
  | none => (-1, emit .unlock s)

/-- `GaplessTransport::IsMuted`. -/
def IsMuted (s : Transport) : Bool :=
  s.muted

/-- `GaplessTransport::SetMuted`. -/
def SetMuted (muted : Bool) (s : Transport) : Transport :=
  if s.muted ≠ muted then
    let s := { s with muted := muted }
    let s := emit (.outputSetVolume (if muted then 0 else s.volume)) s
    emit .volumeChanged s
  else s

/-- `GaplessTransport::Volume`. -/
def Volume (s : Transport) : ℚ :=
  s.volume

/-- `GaplessTransport::SetVolume`. -/
def SetVolume (volume : ℚ) (s : Transport) : Transport :=
  let oldVolume := s.volume
  let volume := max 0 (min 1 volume)
  let s := { s with volume := volume }
  let s := emit (.outputSetVolume s.volume) s
  if oldVolume ≠ s.volume then
    let s := SetMuted false s
    emit .volumeChanged s
  else s

/-- `GaplessTransport::OnPlayerBuffered`. -/
def OnPlayerBuffered (player : Player) (s : Transport) : Transport :=
  if some player = s.activePlayer then
    let s := RaiseStreamEvent .Buffered player s
    SetPlaybackState .Prepared s
  else s

/-- `GaplessTransport::OnPlayerStarted`. -/
def OnPlayerStarted (player : Player) (s : Transport) : Transport :=
  let s := RaiseStreamEvent .Playing player s
  SetPlaybackState .Playing s

/-- `GaplessTransport::OnPlayerAlmostEnded`. -/
def OnPlayerAlmostEnded (getStreamState : Player → StreamState) (player : Player)
    (s : Transport) : Transport :=
  let s := SetNextCanStart true s
  let s := emit .lock s
  let s :=
    if s.nextPlayer.isSome then
      StartWithPlayer getStreamState s.nextPlayer defaultStartMode s
    else s
  let s := emit .unlock s
  RaiseStreamEvent .AlmostDone player s

/-- `GaplessTransport::OnPlayerFinished`. -/
def OnPlayerFinished (getStreamState : Player → StreamState) (player : Player)
    (s : Transport) : Transport :=
  let s := RaiseStreamEvent .Finished player s
  let s := emit .lock s
  let playerIsActive := decide (some player = s.activePlayer)
  let startedNext := playerIsActive && s.nextPlayer.isSome
  let s :=
    if playerIsActive && s.nextPlayer.isSome then
      StartWithPlayer getStreamState s.nextPlayer defaultStartMode s
    else s
  let stopped := if !startedNext then playerIsActive else false
  let s := emit .unlock s
  if stopped then StopInternal false false none s else s

/-- `GaplessTransport::OnPlayerOpenFailed`. -/
def OnPlayerOpenFailed (player : Player) (s : Transport) : Transport :=
  let s := emit .lock s
  let raiseEvents := decide (some player = s.activePlayer)
  let s :=
    if some player = s.activePlayer then
      let s := ResetActivePlayer s
      ResetNextPlayer s
    else if some player = s.nextPlayer then
      ResetNextPlayer s
    else s
  let s := emit .unlock s
  if raiseEvents then
    let s := RaiseStreamEvent .OpenFailed player s
    SetPlaybackState .Stopped s
  else s

/-- `GaplessTransport::OnPlayerDestroying`. -/
def OnPlayerDestroying (player : Player) (s : Transport) : Transport :=
  let s := emit .lock s
  if some player = s.activePlayer then
    let s := ResetActivePlayer s
    emit .unlock s
  else
    emit .unlock s

/-- The destructor `GaplessTransport::~GaplessTransport`. -/
def delete (s : Transport) : Transport :=
  let s := emit .lock s
  let s := ResetNextPlayer s
  let s := ResetActivePlayer s
  emit .unlock s

/-- One call into the transport: a public operation or a session-listener callback.  `created`
says whether `Player::Create` yields a session in that call. -/
inductive Op where
  | Start (uri : String) (gain : Gain) (mode : StartMode) (created : Bool)
  | PrepareNextTrack (uri : String) (gain : Gain) (created : Bool)
  | Stop
  | Pause
  | Resume
  | SetPosition (seconds : ℚ)
  | SetVolume (volume : ℚ)
  | SetMuted (muted : Bool)
  | ReloadOutput
  | OnPlayerBuffered (player : Player)
  | OnPlayerStarted (player : Player)
  | OnPlayerAlmostEnded (player : Player)
  | OnPlayerFinished (player : Player)
  | OnPlayerOpenFailed (player : Player)
  | OnPlayerDestroying (player : Player)

/-- The transport after one call, `getStreamState` being what the sessions answer to
`GetStreamState` during that call. -/
def step (getStreamState : Player → StreamState) (op : Op) (s : Transport) : Transport :=
  match op with
  | .Start uri gain mode created => Start getStreamState uri gain mode created s
  | .PrepareNextTrack uri gain created => PrepareNextTrack getStreamState uri gain created s
  | .Stop => Stop s
  | .Pause => (Pause s).2
  | .Resume => (Resume s).2
  | .SetPosition seconds => SetPosition seconds s
  | .SetVolume volume => SetVolume volume s
  | .SetMuted muted => SetMuted muted s
  | .ReloadOutput => ReloadOutput s
  | .OnPlayerBuffered player => OnPlayerBuffered player s
  | .OnPlayerStarted player => OnPlayerStarted player s
  | .OnPlayerAlmostEnded player => OnPlayerAlmostEnded getStreamState player s
  | .OnPlayerFinished player => OnPlayerFinished getStreamState player s
  | .OnPlayerOpenFailed player => OnPlayerOpenFailed player s
  | .OnPlayerDestroying player => OnPlayerDestroying player s

/-- The transport after a finite sequence of calls, each with the answers of the sessions
during it. -/
def run (calls : List ((Player → StreamState) × Op)) (s : Transport) : Transport :=
  calls.foldl (fun s c => step c.1 c.2 s) s

/-- What was appended to the log between `s` and a later state `t`. -/
def emitted (s t : Transport) : List Effect :=
  t.log.drop s.log.length

/-! ## The log entries of the transitions in closed form -/

/-- What `ResetNextPlayer` (with `slot` the next player) and `ResetActivePlayer` (with `slot` the
active player) append to the log, `active` being the active player at that moment. -/
def resetTrace (slot active : Option Player) : List Effect :=
  match slot with
  | none => []
  | some p =>
    [.detach p, .destroy p, .lock, .unlock] ++
      (if some p = active then [.streamEvent .Destroyed p.url] else [])

/-- What `StartWithPlayer(np, mode)` appends to the log when it finds `next` and `active` in the
two slots. -/
def startTrace (getStreamState : Player → StreamState) (np : Player) (mode : StartMode)
    (next active : Option Player) : List Effect :=
  .lock :: ((if some np = next then [] else resetTrace next active) ++
    (resetTrace active active ++
      ([.lock, .unlock, .streamEvent (getStreamState np) np.url] ++
        ((if some np = next then [] else [.lock, .unlock, .outputStop]) ++
          ([.lock, .unlock, .outputResume] ++
            ((if mode = .Immediate then [.play np] else []) ++ [.unlock]))))))

/-- What `StartWithPlayer(this->nextPlayer)` appends to the log. -/
def promoteTrace (getStreamState : Player → StreamState) (next active : Option Player) :
    List Effect :=
  match next with
  | some n => startTrace getStreamState n defaultStartMode (some n) active
  | none => []

/-- What `SetPlaybackState` appends to the log. -/
def stateTrace (old new : PlaybackState) : List Effect :=
  .lock :: .unlock :: if old = new then [] else [.playbackEvent new]

/-! ## Notions used to state the properties -/

/-- The session `p` was detached and, right after that, destroyed somewhere in `l`. -/
def TornDown (p : Player) (l : List Effect) : Prop :=
  ∃ before after, l = before ++ .detach p :: .destroy p :: after

/-- The transport-visible state (both slots, `playbackState`, `streamState`, `nextCanStart`) is the
same in `s` and `t`. -/
def SameVisibleState (s t : Transport) : Prop :=
  t.activePlayer = s.activePlayer ∧ t.nextPlayer = s.nextPlayer ∧
    t.playbackState = s.playbackState ∧ t.activePlayerState = s.activePlayerState ∧
    t.nextCanStart = s.nextCanStart

/-- Nothing but acquisitions and releases of the state lock happened between `s` and `t`. -/
def Silent (s t : Transport) : Prop :=
  ∀ e ∈ emitted s t, e = .lock ∨ e = .unlock

/-! ## Concrete inputs for the examples -/

/-- Sessions that answer `Buffering` to `GetStreamState`. -/
def idle : Player → StreamState := fun _ => .Buffering

/-- A gain of one. -/
def unity : Gain := ⟨1⟩

/-- A transport that started `a`, prepared `b` and was then stopped. -/
def afterStop : Transport :=
  run [(idle, .Start "a" unity .Immediate true), (idle, .PrepareNextTrack "b" unity true),
    (idle, .Stop)] (new .Buffering)

/-- A transport playing `a` with `b` prepared as the next track. -/
def playingWithNext : Transport :=
  run [(idle, .Start "a" unity .Immediate true), (idle, .OnPlayerStarted ⟨0, "a"⟩),
    (idle, .PrepareNextTrack "b" unity true)] (new .Buffering)

/-! ## Views of the log -/

/-- The sessions to which `Destroy` was issued, in order. -/
def destroyedOf (l : List Effect) : List Player :=
  l.filterMap fun e =>
    match e with
    | .destroy p => some p
    | _ => none

/-- The sessions that `Player::Create` returned, in order. -/
def createdOf (l : List Effect) : List Player :=
  l.filterMap fun e =>
    match e with
    | .create p => some p
    | _ => none

/-- The states carried by the `PlaybackEvent` signals, in order. -/
def playbackEventsOf (l : List Effect) : List PlaybackState :=
  l.filterMap fun e =>
    match e with
    | .playbackEvent st => some st
    | _ => none

/-- The sessions held in the two slots. -/
def held (s : Transport) : List Player :=
  s.activePlayer.toList ++ s.nextPlayer.toList

/-- Every `Destroy` in `l` comes right after a `Detach` of the same session. -/
def DetachBeforeDestroy (l : List Effect) : Prop :=
  ∀ i p, l[i]? = some (.destroy p) → ∃ j, j + 1 = i ∧ l[j]? = some (.detach p)

/-- The two calls of a teardown, `Detach` and `Destroy`. -/
def Effect.isTeardown : Effect → Bool
  | .detach _ => true
  | .destroy _ => true
  | _ => false

/-! ## Invariants of the runs -/

/-- The bookkeeping of sessions: the sessions created so far are, each exactly once, either held
in a slot or destroyed; their identities are below `nextId`; every `Destroy` follows a `Detach`. -/
def Accounted (s : Transport) : Prop :=
  (createdOf s.log).Perm (held s ++ destroyedOf s.log) ∧ (createdOf s.log).Nodup ∧
    (∀ p ∈ createdOf s.log, p.id < s.nextId) ∧ DetachBeforeDestroy s.log

/-- The playback events so far, the initial state `Stopped` put in front, never repeat a state and
end in the current playback state. -/
def Announced (s : Transport) : Prop :=
  List.Chain' (· ≠ ·) (.Stopped :: playbackEventsOf s.log) ∧
    (PlaybackState.Stopped :: playbackEventsOf s.log).getLast? = some s.playbackState

/-- A call the amended invariant admits in state `s`: every call except `OnPlayerStarted` (from
any session) while the active slot is empty, and `OnPlayerDestroying` from the session in the
active slot while `playbackState` is not `Stopped`. -/
def Admitted (op : Op) (s : Transport) : Bool :=
  match op with
  | .OnPlayerStarted _ => s.activePlayer.isSome
  | .OnPlayerDestroying p => decide (some p ≠ s.activePlayer) || decide (s.playbackState = .Stopped)
  | _ => true

/-- Every call of the sequence is admitted in the state in which it is made. -/
def AdmittedRun : List ((Player → StreamState) × Op) → Transport → Bool
  | [], _ => true
  | c :: cs, s => Admitted c.2 s && AdmittedRun cs (step c.1 c.2 s)

/-! ## Further notions for the callbacks and the public operations -/

/-- The stream events raised, in order, each with the type and the url it carries. -/
def streamEventsOf (l : List Effect) : List (StreamState × String) :=
  l.filterMap fun e =>
    match e with
    | .streamEvent type url => some (type, url)
    | _ => none

/-- The signals raised to subscribers: `PlaybackEvent`, `StreamEvent`, `TimeChanged` and
`VolumeChanged`. -/
def Effect.isSignal : Effect → Bool
  | .playbackEvent _ => true
  | .streamEvent _ _ => true
  | .timeChanged _ => true
  | .volumeChanged => true
  | _ => false

/-- A transport playing `a`, nothing prepared. -/
def playing : Transport :=
  run [(idle, .Start "a" unity .Immediate true), (idle, .OnPlayerStarted ⟨0, "a"⟩)]
    (new .Buffering)

/-- A transport that was just asked to start `bad-uri`. -/
def opening : Transport :=
  run [(idle, .Start "bad-uri" unity .Immediate true)] (new .Buffering)

/-! ## Notions for seeking, the volume, the reads and the lock -/

/-- The seconds carried by the `TimeChanged` signals, in order. -/
def timeEventsOf (l : List Effect) : List ℚ :=
  l.filterMap fun e =>
    match e with
    | .timeChanged seconds => some seconds
    | _ => none

/-- How one action changes what is known of the volume of the output device. -/
def deviceStep (known : Option ℚ) (e : Effect) : Option ℚ :=
  match e with
  | .outputSetVolume v => some v
  | .selectOutput => none
  | _ => known

/-- The volume of the output device as far as the log tells: the argument of the latest
`SetVolume` on the output, unknown (`none`) right after an output was selected. -/
def deviceVolume (l : List Effect) : Option ℚ :=
  l.foldl deviceStep none

/-- Every member variable of the transport (and the identity counter) is the same in `s` and
`t`; only the log may differ. -/
def SameState (s t : Transport) : Prop :=
  t.volume = s.volume ∧ t.playbackState = s.playbackState ∧ t.activePlayer = s.activePlayer ∧
    t.nextPlayer = s.nextPlayer ∧ t.nextCanStart = s.nextCanStart ∧ t.muted = s.muted ∧
    t.activePlayerState = s.activePlayerState ∧ t.nextId = s.nextId

/-- The signals of `l`, each with the number of times the emitting thread holds the (recursive)
state lock when it is raised, `depth` being that number at the start of `l`. -/
def signalDepths (depth : Nat) : List Effect → List (Effect × Nat)
  | [] => []
  | e :: l =>
    match e with
    | .lock => signalDepths (depth + 1) l
    | .unlock => signalDepths (depth - 1) l
    | _ => (if e.isSignal then [(e, depth)] else []) ++ signalDepths depth l

/-- A muted transport, otherwise fresh. -/
def mutedFresh : Transport :=
  run [(idle, .SetMuted true)] (new .Buffering)

/-- A paused transport with `a` loaded. -/
def paused : Transport :=
  run [(idle, .Start "a" unity .Immediate true), (idle, .OnPlayerStarted ⟨0, "a"⟩),
    (idle, .Pause)] (new .Buffering)

/-! ## The master transport

A shallow embedding of `MasterTransport::SwitchTo` and the delegating `Volume` and `SetVolume` of
`src/musikcore/audio/MasterTransport.cpp`. -/

/-- The enumeration `MasterTransport::Type`. -/
inductive TransportType where
  | Gapless
  | Crossfade
  deriving DecidableEq, Repr

/-- Modelled from the spec: `CrossfadeTransport`, whose sources are not at hand.  The spec gives
it the same transport contract as the gapless transport; of that contract only the volume is
modelled: `Volume()` returns the stored volume and `SetVolume` clamps its argument to `[0, 1]`. -/
structure CrossfadeTransport where
  volume : ℚ
  deriving DecidableEq, Repr

/-- Modelled from the spec: `CrossfadeTransport::Volume`. -/
def CrossfadeTransport.Volume (c : CrossfadeTransport) : ℚ :=
  c.volume

/-- Modelled from the spec: `CrossfadeTransport::SetVolume`. -/
def CrossfadeTransport.SetVolume (volume : ℚ) (_c : CrossfadeTransport) : CrossfadeTransport :=
  { volume := max 0 (min 1 volume) }

/-- What a `std::shared_ptr<ITransport>` of the master transport points to. -/
inductive ITransport where
  | gapless (t : Transport)
  | crossfade (c : CrossfadeTransport)

/-- The virtual call `ITransport::Volume`. -/
def ITransport.Volume : ITransport → ℚ
  | .gapless t => GaplessTransport.Volume t
  | .crossfade c => c.Volume

/-- The virtual call `ITransport::SetVolume`. -/
def ITransport.SetVolume (volume : ℚ) : ITransport → ITransport
  | .gapless t => .gapless (GaplessTransport.SetVolume volume t)
  | .crossfade c => .crossfade (c.SetVolume volume)

/-- The member variables of `MasterTransport`: the current type, the transport (null before the
first `SwitchTo`), the value stored under the preference key `keys::Transport`, and whether the
four signals of the current transport are connected to the master. -/
structure MasterTransport where
  type : TransportType
  transport : Option ITransport
  storedType : TransportType
  connected : Bool

/-- `MasterTransport::SwitchTo`.  `activePlayerState` is the initial stream state of a new
gapless transport and `crossfadeVolume` the volume a new crossfade transport is constructed with
(neither is given by the sources at hand).  The result is `none` where the code dereferences a null
pointer: `dynamic_cast<CrossfadeTransport*>` of an outgoing transport that is not a crossfade
transport.  `StopImmediately` acts on the outgoing transport only, which is released. -/
def MasterTransport.SwitchTo (activePlayerState : StreamState) (crossfadeVolume : ℚ)
    (type : TransportType) (m : MasterTransport) : Option MasterTransport :=
  if m.transport.isNone ∨ m.type ≠ type then
    let volume : ℚ :=
      match m.transport with
      | some t => t.Volume
      | none => -1
    let created : Option ITransport :=
      match type with
      | .Gapless =>
        match m.transport with
        | some (.crossfade _) => some (.gapless (new activePlayerState))
        | some (.gapless _) => none
        | none => some (.gapless (new activePlayerState))
      | .Crossfade => some (.crossfade { volume := crossfadeVolume })
    created.map fun t =>
      { type := type
        transport := some (if volume > 0 then t.SetVolume volume else t)
        storedType := type
        connected := true }
  else
    some m

/-- `MasterTransport::Volume`; `none` where the transport pointer is null. -/
def MasterTransport.Volume (m : MasterTransport) : Option ℚ :=
  m.transport.map ITransport.Volume

/-- `MasterTransport::SetVolume`; `none` where the transport pointer is null. -/
def MasterTransport.SetVolume (volume : ℚ) (m : MasterTransport) : Option MasterTransport :=
  m.transport.map fun t => { m with transport := some (t.SetVolume volume) }

/-- A master transport on the crossfade transport, set to volume zero. -/
def silentCrossfade : MasterTransport :=
  { type := .Crossfade
    transport := some (.crossfade { volume := 0 })
    storedType := .Crossfade
    connected := true }

/-- A master transport on a fresh gapless transport that was set to volume zero. -/
def silentGapless : MasterTransport :=
  { type := .Gapless
    transport := some (.gapless (SetVolume 0 (new .Buffering)))
    storedType := .Gapless
    connected := true }

/-! ## The ghost record of the stream events -/

/-- The stream event of a ghost record: its type and url. -/
def eventOf (x : StreamState × String × Option Player) : StreamState × String :=
  (x.1, x.2.1)

/-- The ghost record is that of an event raised while a session was in the active slot, and it
carries the url of that session. -/
def FromActive (x : StreamState × String × Option Player) : Prop :=
  ∃ p, x.2.2 = some p ∧ x.2.1 = p.url

/-- What `ResetNextPlayer` and `ResetActivePlayer` add to the ghost record. -/
def resetRaised (slot active : Option Player) : List (StreamState × String × Option Player) :=
  match slot with
  | none => []
  | some p => if some p = active then [(.Destroyed, p.url, active)] else []

/-- What `StartWithPlayer(np, mode)` adds to the ghost record. -/
def startRaised (getStreamState : Player → StreamState) (np : Player)
    (next active : Option Player) : List (StreamState × String × Option Player) :=
  (if some np = next then [] else resetRaised next active) ++
    (resetRaised active active ++ [(getStreamState np, np.url, some np)])

/-- What `StartWithPlayer(this->nextPlayer)` adds to the ghost record. -/
def promoteRaised (getStreamState : Player → StreamState) (next active : Option Player) :
    List (StreamState × String × Option Player) :=
  match next with
  | some n => startRaised getStreamState n (some n) active
  | none => []

/-- Between `s` and `t` the ghost record grew by records that are in step with the stream events
of the log, every one of them is from the session then active, and the stored stream state moved
to the type of the last of them. -/
def Raises (s t : Transport) : Prop :=
  ∃ r, t.raised = s.raised ++ r ∧
    streamEventsOf t.log = streamEventsOf s.log ++ r.map eventOf ∧
    (∀ x ∈ r, FromActive x) ∧
    t.activePlayerState = (r.getLast?.map fun x => x.1).getD s.activePlayerState

/-- What was added to the ghost record between `s` and a later state `t`. -/
def raisedIn (s t : Transport) : List (StreamState × String × Option Player) :=
  t.raised.drop s.raised.length

/-! ## Field-by-field description of every function -/

@[simp] theorem emit_fields (e : Effect) (s : Transport) :
    (emit e s).volume = s.volume ∧ (emit e s).playbackState = s.playbackState ∧
    (emit e s).activePlayer = s.activePlayer ∧ (emit e s).nextPlayer = s.nextPlayer ∧
    (emit e s).nextCanStart = s.nextCanStart ∧ (emit e s).muted = s.muted ∧
    (emit e s).activePlayerState = s.activePlayerState ∧ (emit e s).nextId = s.nextId ∧
    (emit e s).log = s.log ++ [e] := by
  simp [emit]

@[simp] theorem SetPlaybackState_fields (st : PlaybackState) (s : Transport) :
    (SetPlaybackState st s).volume = s.volume ∧
    (SetPlaybackState st s).playbackState = st ∧
    (SetPlaybackState st s).activePlayer = s.activePlayer ∧
    (SetPlaybackState st s).nextPlayer = s.nextPlayer ∧
    (SetPlaybackState st s).nextCanStart = s.nextCanStart ∧
    (SetPlaybackState st s).muted = s.muted ∧
    (SetPlaybackState st s).activePlayerState = s.activePlayerState ∧
    (SetPlaybackState st s).nextId = s.nextId ∧
    (SetPlaybackState st s).log =
      s.log ++ (.lock :: .unlock :: if s.playbackState = st then [] else [.playbackEvent st]) := by
  unfold SetPlaybackState
  by_cases h : s.playbackState = st <;> simp [h, emit]

@[simp] theorem RaiseStreamEvent_fields (type : StreamState) (p : Player) (s : Transport) :
    (RaiseStreamEvent type p s).volume = s.volume ∧
    (RaiseStreamEvent type p s).playbackState = s.playbackState ∧
    (RaiseStreamEvent type p s).activePlayer = s.activePlayer ∧
    (RaiseStreamEvent type p s).nextPlayer = s.nextPlayer ∧
    (RaiseStreamEvent type p s).nextCanStart = s.nextCanStart ∧
    (RaiseStreamEvent type p s).muted = s.muted ∧
    (RaiseStreamEvent type p s).activePlayerState =
      (if some p = s.activePlayer then type else s.activePlayerState) ∧
    (RaiseStreamEvent type p s).nextId = s.nextId ∧
    (RaiseStreamEvent type p s).log =
      s.log ++ (.lock :: .unlock ::
        if some p = s.activePlayer then [.streamEvent type p.url] else []) := by
  unfold RaiseStreamEvent
  by_cases h : some p = s.activePlayer <;> simp [h, emit]

@[simp] theorem ResetNextPlayer_fields (s : Transport) :
    (ResetNextPlayer s).volume = s.volume ∧
    (ResetNextPlayer s).playbackState = s.playbackState ∧
    (ResetNextPlayer s).activePlayer = s.activePlayer ∧
    (ResetNextPlayer s).nextPlayer = none ∧
    (ResetNextPlayer s).nextCanStart = s.nextCanStart ∧
    (ResetNextPlayer s).muted = s.muted ∧
    (ResetNextPlayer s).activePlayerState =
      (if s.nextPlayer.isSome ∧ s.nextPlayer = s.activePlayer then .Destroyed
        else s.activePlayerState) ∧
    (ResetNextPlayer s).nextId = s.nextId ∧
    (ResetNextPlayer s).log = s.log ++ resetTrace s.nextPlayer s.activePlayer := by
  unfold ResetNextPlayer resetTrace
  rcases h : s.nextPlayer with _ | p
  · simp [h]
  · by_cases h2 : some p = s.activePlayer
    · have h3 := h2.symm
      simp [h3]
    · simp [h2]

@[simp] theorem ResetActivePlayer_fields (s : Transport) :
    (ResetActivePlayer s).volume = s.volume ∧
    (ResetActivePlayer s).playbackState = s.playbackState ∧
    (ResetActivePlayer s).activePlayer = none ∧
    (ResetActivePlayer s).nextPlayer = s.nextPlayer ∧
    (ResetActivePlayer s).nextCanStart = s.nextCanStart ∧
    (ResetActivePlayer s).muted = s.muted ∧
    (ResetActivePlayer s).activePlayerState =
      (if s.activePlayer.isSome then .Destroyed else s.activePlayerState) ∧
    (ResetActivePlayer s).nextId = s.nextId ∧
    (ResetActivePlayer s).log = s.log ++ resetTrace s.activePlayer s.activePlayer := by
  unfold ResetActivePlayer resetTrace
  rcases h : s.activePlayer with _ | p <;> simp [h]

@[simp] theorem SetNextCanStart_fields (b : Bool) (s : Transport) :
    (SetNextCanStart b s).volume = s.volume ∧
    (SetNextCanStart b s).playbackState = s.playbackState ∧
    (SetNextCanStart b s).activePlayer = s.activePlayer ∧
    (SetNextCanStart b s).nextPlayer = s.nextPlayer ∧
    (SetNextCanStart b s).nextCanStart = b ∧
    (SetNextCanStart b s).muted = s.muted ∧
    (SetNextCanStart b s).activePlayerState = s.activePlayerState ∧
    (SetNextCanStart b s).nextId = s.nextId ∧
    (SetNextCanStart b s).log = s.log ++ [.lock, .unlock] := by
  simp [SetNextCanStart, emit]

@[simp] theorem StopInternal_fields (sup so : Bool) (ex : Option Player) (s : Transport) :
    (StopInternal sup so ex s).volume = s.volume ∧
    (StopInternal sup so ex s).playbackState = (if sup then s.playbackState else .Stopped) ∧
    (StopInternal sup so ex s).activePlayer =
      (if so = true ∧ s.activePlayer ≠ ex then none else s.activePlayer) ∧
    (StopInternal sup so ex s).nextPlayer = (if so then none else s.nextPlayer) ∧
    (StopInternal sup so ex s).nextCanStart = s.nextCanStart ∧
    (StopInternal sup so ex s).muted = s.muted ∧
    (StopInternal sup so ex s).activePlayerState =
      (if so = true ∧ s.activePlayer.isSome ∧ (s.activePlayer ≠ ex ∨ s.nextPlayer = s.activePlayer)
        then .Destroyed else s.activePlayerState) ∧
    (StopInternal sup so ex s).nextId = s.nextId ∧
    (StopInternal sup so ex s).log =
      s.log ++
        ((if so then
            .lock :: (resetTrace s.nextPlayer s.activePlayer ++
              ((if s.activePlayer = ex then [] else resetTrace s.activePlayer s.activePlayer) ++
                [.unlock, .outputStop]))
          else []) ++
          (if sup then []
            else .lock :: .unlock ::
              if s.playbackState = .Stopped then [] else [.playbackEvent .Stopped])) := by
  unfold StopInternal
  rcases s with ⟨v, ps, _ | a, _ | n, ncs, m, aps, nid, lg, rz⟩ <;>
    rcases ex with _ | e <;> cases sup <;> cases so <;> simp
  all_goals (by_cases hae : a = e <;> simp [hae])

@[simp] theorem StartWithPlayer_none (g : Player → StreamState) (mode : StartMode)
    (s : Transport) : StartWithPlayer g none mode s = s := rfl

@[simp] theorem StartWithPlayer_fields (g : Player → StreamState) (np : Player)
    (mode : StartMode) (s : Transport) :
    (StartWithPlayer g (some np) mode s).volume = s.volume ∧
    (StartWithPlayer g (some np) mode s).playbackState = s.playbackState ∧
    (StartWithPlayer g (some np) mode s).activePlayer = some np ∧
    (StartWithPlayer g (some np) mode s).nextPlayer = none ∧
    (StartWithPlayer g (some np) mode s).nextCanStart = false ∧
    (StartWithPlayer g (some np) mode s).muted = s.muted ∧
    (StartWithPlayer g (some np) mode s).activePlayerState = g np ∧
    (StartWithPlayer g (some np) mode s).nextId = s.nextId ∧
    (StartWithPlayer g (some np) mode s).log =
      s.log ++ startTrace g np mode s.nextPlayer s.activePlayer := by
  unfold StartWithPlayer startTrace
  by_cases h : some np = s.nextPlayer <;> cases mode <;> simp [h, resetTrace]

@[simp] theorem Create_false (uri : String) (s : Transport) :
    Player.Create uri false s = (none, s) := rfl

@[simp] theorem Create_true_fst (uri : String) (s : Transport) :
    (Player.Create uri true s).1 = some ⟨s.nextId, uri⟩ := rfl

@[simp] theorem Create_true_fields (uri : String) (s : Transport) :
    ((Player.Create uri true s).2).volume = s.volume ∧
    ((Player.Create uri true s).2).playbackState = s.playbackState ∧
    ((Player.Create uri true s).2).activePlayer = s.activePlayer ∧
    ((Player.Create uri true s).2).nextPlayer = s.nextPlayer ∧
    ((Player.Create uri true s).2).nextCanStart = s.nextCanStart ∧
    ((Player.Create uri true s).2).muted = s.muted ∧
    ((Player.Create uri true s).2).activePlayerState = s.activePlayerState ∧
    ((Player.Create uri true s).2).nextId = s.nextId + 1 ∧
    ((Player.Create uri true s).2).log = s.log ++ [.create ⟨s.nextId, uri⟩] := by
  simp [Player.Create]


@[simp] theorem Start_false (g : Player → StreamState) (uri : String) (gain : Gain)
    (mode : StartMode) (s : Transport) : Start g uri gain mode false s = s := rfl

@[simp] theorem Start_fields (g : Player → StreamState) (uri : String) (gain : Gain) (mode : StartMode) (s : Transport) :
    (Start g uri gain mode true s).volume = s.volume ∧
    (Start g uri gain mode true s).playbackState = s.playbackState ∧
    (Start g uri gain mode true s).activePlayer = some ⟨s.nextId, uri⟩ ∧
    (Start g uri gain mode true s).nextPlayer = none ∧
    (Start g uri gain mode true s).nextCanStart = false ∧
    (Start g uri gain mode true s).muted = s.muted ∧
    (Start g uri gain mode true s).activePlayerState = g ⟨s.nextId, uri⟩ ∧
    (Start g uri gain mode true s).nextId = s.nextId + 1 ∧
    (Start g uri gain mode true s).log = s.log ++ .create ⟨s.nextId, uri⟩ ::
        startTrace g ⟨s.nextId, uri⟩ mode s.nextPlayer s.activePlayer := by
  simp [Start]

@[simp] theorem Stop_fields (s : Transport) :
    (Stop s).volume = s.volume ∧
    (Stop s).playbackState = .Stopped ∧
    (Stop s).activePlayer = none ∧
    (Stop s).nextPlayer = none ∧
    (Stop s).nextCanStart = s.nextCanStart ∧
    (Stop s).muted = s.muted ∧
    (Stop s).activePlayerState = (if s.activePlayer.isSome then .Destroyed else s.activePlayerState) ∧
    (Stop s).nextId = s.nextId ∧
    (Stop s).log = s.log ++ .lock :: (resetTrace s.nextPlayer s.activePlayer ++
        (resetTrace s.activePlayer s.activePlayer ++
          (.unlock :: .outputStop :: .lock :: .unlock ::
            if s.playbackState = .Stopped then [] else [.playbackEvent .Stopped]))) := by
  rcases s with ⟨v, ps, _ | a, _ | n, ncs, m, aps, nid, lg, rz⟩ <;> simp [Stop, resetTrace]

@[simp] theorem ReloadOutput_fields (s : Transport) :
    (ReloadOutput s).volume = s.volume ∧
    (ReloadOutput s).playbackState = .Stopped ∧
    (ReloadOutput s).activePlayer = none ∧
    (ReloadOutput s).nextPlayer = none ∧
    (ReloadOutput s).nextCanStart = s.nextCanStart ∧
    (ReloadOutput s).muted = s.muted ∧
    (ReloadOutput s).activePlayerState = (if s.activePlayer.isSome then .Destroyed else s.activePlayerState) ∧
    (ReloadOutput s).nextId = s.nextId ∧
    (ReloadOutput s).log = s.log ++ .lock :: (resetTrace s.nextPlayer s.activePlayer ++
        (resetTrace s.activePlayer s.activePlayer ++
          (.unlock :: .outputStop :: .lock :: .unlock ::
            ((if s.playbackState = .Stopped then [] else [.playbackEvent .Stopped]) ++
              [.selectOutput, .outputSetVolume s.volume])))) := by
  simp [ReloadOutput]

@[simp] theorem PrepareNextTrack_fields (g : Player → StreamState) (uri : String) (gain : Gain) (created : Bool) (s : Transport) :
    (PrepareNextTrack g uri gain created s).volume = s.volume ∧
    (PrepareNextTrack g uri gain created s).playbackState = s.playbackState ∧
    (PrepareNextTrack g uri gain created s).activePlayer = (if (uri.length ≠ 0 ∧ created = true ∧ s.nextCanStart = true) then some ⟨s.nextId, uri⟩ else s.activePlayer) ∧
    (PrepareNextTrack g uri gain created s).nextPlayer = (if (uri.length ≠ 0 ∧ created = true) ∧ s.nextCanStart = false then some ⟨s.nextId, uri⟩ else none) ∧
    (PrepareNextTrack g uri gain created s).nextCanStart = (if (uri.length ≠ 0 ∧ created = true ∧ s.nextCanStart = true) then false else s.nextCanStart) ∧
    (PrepareNextTrack g uri gain created s).muted = s.muted ∧
    (PrepareNextTrack g uri gain created s).activePlayerState = (if (uri.length ≠ 0 ∧ created = true ∧ s.nextCanStart = true) then g ⟨s.nextId, uri⟩
        else if s.nextPlayer.isSome ∧ s.nextPlayer = s.activePlayer then .Destroyed
        else s.activePlayerState) ∧
    (PrepareNextTrack g uri gain created s).nextId = (if (uri.length ≠ 0 ∧ created = true) then s.nextId + 1 else s.nextId) ∧
    (PrepareNextTrack g uri gain created s).log = s.log ++ .lock :: (resetTrace s.nextPlayer s.activePlayer ++
        (if (uri.length ≠ 0 ∧ created = true) then
          .create ⟨s.nextId, uri⟩ :: .unlock ::
            (if s.nextCanStart then
              startTrace g ⟨s.nextId, uri⟩ defaultStartMode (some ⟨s.nextId, uri⟩) s.activePlayer
            else [])
        else [.unlock])) := by
  unfold PrepareNextTrack
  by_cases hu : uri.length = 0 <;> cases created <;> cases hn : s.nextCanStart <;>
    simp [hu, hn]


@[simp] theorem Pause_fst (s : Transport) : (Pause s).1 = s.activePlayer.isSome := by
  unfold Pause
  cases h : s.activePlayer <;> simp [h]

@[simp] theorem Pause_fields (s : Transport) :
    ((Pause s).2).volume = s.volume ∧
    ((Pause s).2).playbackState = (if s.activePlayer.isSome then .Paused else s.playbackState) ∧
    ((Pause s).2).activePlayer = s.activePlayer ∧
    ((Pause s).2).nextPlayer = s.nextPlayer ∧
    ((Pause s).2).nextCanStart = s.nextCanStart ∧
    ((Pause s).2).muted = s.muted ∧
    ((Pause s).2).activePlayerState = s.activePlayerState ∧
    ((Pause s).2).nextId = s.nextId ∧
    ((Pause s).2).log = s.log ++ .outputPause ::
        (if s.activePlayer.isSome then stateTrace s.playbackState .Paused else []) := by
  unfold Pause stateTrace
  cases h : s.activePlayer <;> simp [h]


@[simp] theorem Resume_fst (s : Transport) : (Resume s).1 = s.activePlayer.isSome := by
  unfold Resume
  cases h : s.activePlayer <;> simp [h]

@[simp] theorem Resume_fields (s : Transport) :
    ((Resume s).2).volume = s.volume ∧
    ((Resume s).2).playbackState = (if s.activePlayer.isSome then .Playing else s.playbackState) ∧
    ((Resume s).2).activePlayer = s.activePlayer ∧
    ((Resume s).2).nextPlayer = s.nextPlayer ∧
    ((Resume s).2).nextCanStart = s.nextCanStart ∧
    ((Resume s).2).muted = s.muted ∧
    ((Resume s).2).activePlayerState = s.activePlayerState ∧
    ((Resume s).2).nextId = s.nextId ∧
    ((Resume s).2).log = s.log ++ .outputResume :: .lock ::
        (match s.activePlayer with
          | some p => .play p :: .unlock :: stateTrace s.playbackState .Playing
          | none => [.unlock]) := by
  unfold Resume stateTrace
  cases h : s.activePlayer <;> simp [h]

@[simp] theorem SetPosition_fields (seconds : ℚ) (s : Transport) :
    (SetPosition seconds s).volume = s.volume ∧
    (SetPosition seconds s).playbackState = (if s.activePlayer.isSome then .Playing else s.playbackState) ∧
    (SetPosition seconds s).activePlayer = s.activePlayer ∧
    (SetPosition seconds s).nextPlayer = s.nextPlayer ∧
    (SetPosition seconds s).nextCanStart = s.nextCanStart ∧
    (SetPosition seconds s).muted = s.muted ∧
    (SetPosition seconds s).activePlayerState = s.activePlayerState ∧
    (SetPosition seconds s).nextId = s.nextId ∧
    (SetPosition seconds s).log = s.log ++ .lock ::
        (match s.activePlayer with
          | some p =>
            (if s.playbackState = .Playing then []
              else [.lock, .unlock, .playbackEvent .Playing]) ++
              [.setPosition p seconds, .unlock, .timeChanged seconds]
          | none => [.unlock]) := by
  unfold SetPosition
  cases h : s.activePlayer <;> by_cases hp : s.playbackState = .Playing <;> simp [h, hp]

@[simp] theorem SetMuted_fields (m : Bool) (s : Transport) :
    (SetMuted m s).volume = s.volume ∧
    (SetMuted m s).playbackState = s.playbackState ∧
    (SetMuted m s).activePlayer = s.activePlayer ∧
    (SetMuted m s).nextPlayer = s.nextPlayer ∧
    (SetMuted m s).nextCanStart = s.nextCanStart ∧
    (SetMuted m s).muted = m ∧
    (SetMuted m s).activePlayerState = s.activePlayerState ∧
    (SetMuted m s).nextId = s.nextId ∧
    (SetMuted m s).log = s.log ++
        (if s.muted = m then []
          else [.outputSetVolume (if m then 0 else s.volume), .volumeChanged]) := by
  unfold SetMuted
  by_cases h : s.muted = m <;> simp [h]

@[simp] theorem SetVolume_fields (v : ℚ) (s : Transport) :
    (SetVolume v s).volume = max 0 (min 1 v) ∧
    (SetVolume v s).playbackState = s.playbackState ∧
    (SetVolume v s).activePlayer = s.activePlayer ∧
    (SetVolume v s).nextPlayer = s.nextPlayer ∧
    (SetVolume v s).nextCanStart = s.nextCanStart ∧
    (SetVolume v s).muted = (if s.volume = max 0 (min 1 v) then s.muted else false) ∧
    (SetVolume v s).activePlayerState = s.activePlayerState ∧
    (SetVolume v s).nextId = s.nextId ∧
    (SetVolume v s).log = s.log ++ .outputSetVolume (max 0 (min 1 v)) ::
        (if s.volume = max 0 (min 1 v) then []
          else (if s.muted = false then []
            else [.outputSetVolume (max 0 (min 1 v)), .volumeChanged]) ++ [.volumeChanged]) := by
  unfold SetVolume
  by_cases h : s.volume = max 0 (min 1 v) <;> cases hm : s.muted <;> simp [h, hm]

@[simp] theorem OnPlayerBuffered_fields (p : Player) (s : Transport) :
    (OnPlayerBuffered p s).volume = s.volume ∧
    (OnPlayerBuffered p s).playbackState = (if some p = s.activePlayer then .Prepared else s.playbackState) ∧
    (OnPlayerBuffered p s).activePlayer = s.activePlayer ∧
    (OnPlayerBuffered p s).nextPlayer = s.nextPlayer ∧
    (OnPlayerBuffered p s).nextCanStart = s.nextCanStart ∧
    (OnPlayerBuffered p s).muted = s.muted ∧
    (OnPlayerBuffered p s).activePlayerState = (if some p = s.activePlayer then .Buffered else s.activePlayerState) ∧
    (OnPlayerBuffered p s).nextId = s.nextId ∧
    (OnPlayerBuffered p s).log = s.log ++
        (if some p = s.activePlayer then
          .lock :: .unlock :: .streamEvent .Buffered p.url ::
            stateTrace s.playbackState .Prepared
        else []) := by
  unfold OnPlayerBuffered stateTrace
  by_cases h : some p = s.activePlayer <;> simp [h]

@[simp] theorem OnPlayerStarted_fields (p : Player) (s : Transport) :
    (OnPlayerStarted p s).volume = s.volume ∧
    (OnPlayerStarted p s).playbackState = .Playing ∧
    (OnPlayerStarted p s).activePlayer = s.activePlayer ∧
    (OnPlayerStarted p s).nextPlayer = s.nextPlayer ∧
    (OnPlayerStarted p s).nextCanStart = s.nextCanStart ∧
    (OnPlayerStarted p s).muted = s.muted ∧
    (OnPlayerStarted p s).activePlayerState = (if some p = s.activePlayer then .Playing else s.activePlayerState) ∧
    (OnPlayerStarted p s).nextId = s.nextId ∧
    (OnPlayerStarted p s).log = s.log ++ .lock :: .unlock ::
        ((if some p = s.activePlayer then [.streamEvent .Playing p.url] else []) ++
          stateTrace s.playbackState .Playing) := by
  unfold OnPlayerStarted stateTrace
  by_cases h : some p = s.activePlayer <;> simp [h]

@[simp] theorem OnPlayerAlmostEnded_fields (g : Player → StreamState) (p : Player) (s : Transport) :
    (OnPlayerAlmostEnded g p s).volume = s.volume ∧
    (OnPlayerAlmostEnded g p s).playbackState = s.playbackState ∧
    (OnPlayerAlmostEnded g p s).activePlayer = (if s.nextPlayer.isSome then s.nextPlayer else s.activePlayer) ∧
    (OnPlayerAlmostEnded g p s).nextPlayer = none ∧
    (OnPlayerAlmostEnded g p s).nextCanStart = !s.nextPlayer.isSome ∧
    (OnPlayerAlmostEnded g p s).muted = s.muted ∧
    (OnPlayerAlmostEnded g p s).activePlayerState = (if some p = (if s.nextPlayer.isSome then s.nextPlayer else s.activePlayer) then .AlmostDone
        else match s.nextPlayer with
          | some n => g n
          | none => s.activePlayerState) ∧
    (OnPlayerAlmostEnded g p s).nextId = s.nextId ∧
    (OnPlayerAlmostEnded g p s).log = s.log ++ .lock :: .unlock :: .lock ::
        (promoteTrace g s.nextPlayer s.activePlayer ++
          (.unlock :: .lock :: .unlock ::
            if some p = (if s.nextPlayer.isSome then s.nextPlayer else s.activePlayer) then [.streamEvent .AlmostDone p.url] else [])) := by
  unfold OnPlayerAlmostEnded promoteTrace
  rcases s with ⟨v, ps, a, _ | n, ncs, m, aps, nid, lg, rz⟩ <;> simp

@[simp] theorem OnPlayerFinished_fields (g : Player → StreamState) (p : Player) (s : Transport) :
    (OnPlayerFinished g p s).volume = s.volume ∧
    (OnPlayerFinished g p s).playbackState = (if some p = s.activePlayer ∧ s.nextPlayer = none then .Stopped else s.playbackState) ∧
    (OnPlayerFinished g p s).activePlayer = (if some p = s.activePlayer ∧ s.nextPlayer.isSome then s.nextPlayer else s.activePlayer) ∧
    (OnPlayerFinished g p s).nextPlayer = (if some p = s.activePlayer then none else s.nextPlayer) ∧
    (OnPlayerFinished g p s).nextCanStart = (if some p = s.activePlayer ∧ s.nextPlayer.isSome then false else s.nextCanStart) ∧
    (OnPlayerFinished g p s).muted = s.muted ∧
    (OnPlayerFinished g p s).activePlayerState = (if some p = s.activePlayer then
          match s.nextPlayer with
          | some n => g n
          | none => .Finished
        else s.activePlayerState) ∧
    (OnPlayerFinished g p s).nextId = s.nextId ∧
    (OnPlayerFinished g p s).log = s.log ++ .lock :: .unlock ::
        (if some p = s.activePlayer then
          .streamEvent .Finished p.url :: .lock ::
            (promoteTrace g s.nextPlayer s.activePlayer ++
              (.unlock ::
                if s.nextPlayer = none then stateTrace s.playbackState .Stopped else []))
        else [.lock, .unlock]) := by
  unfold OnPlayerFinished promoteTrace stateTrace
  rcases s with ⟨v, ps, a, _ | n, ncs, m, aps, nid, lg, rz⟩ <;>
    by_cases h : some p = a <;> simp [h]

@[simp] theorem OnPlayerOpenFailed_fields (p : Player) (s : Transport) :
    (OnPlayerOpenFailed p s).volume = s.volume ∧
    (OnPlayerOpenFailed p s).playbackState = (if some p = s.activePlayer then .Stopped else s.playbackState) ∧
    (OnPlayerOpenFailed p s).activePlayer = (if some p = s.activePlayer then none else s.activePlayer) ∧
    (OnPlayerOpenFailed p s).nextPlayer = (if some p = s.activePlayer ∨ some p = s.nextPlayer then none else s.nextPlayer) ∧
    (OnPlayerOpenFailed p s).nextCanStart = s.nextCanStart ∧
    (OnPlayerOpenFailed p s).muted = s.muted ∧
    (OnPlayerOpenFailed p s).activePlayerState = (if some p = s.activePlayer then .Destroyed else s.activePlayerState) ∧
    (OnPlayerOpenFailed p s).nextId = s.nextId ∧
    (OnPlayerOpenFailed p s).log = s.log ++ .lock ::
        (if some p = s.activePlayer then
          resetTrace s.activePlayer s.activePlayer ++
            (resetTrace s.nextPlayer none ++
              (.unlock :: .lock :: .unlock :: stateTrace s.playbackState .Stopped))
        else if some p = s.nextPlayer then
          resetTrace s.nextPlayer s.activePlayer ++ [.unlock]
        else [.unlock]) := by
  unfold OnPlayerOpenFailed stateTrace
  rcases s with ⟨v, ps, a, n, ncs, m, aps, nid, lg, rz⟩
  by_cases h : some p = a
  · subst h
    rcases n with _ | n <;> simp [resetTrace]
  · by_cases h2 : some p = n
    · subst h2
      simp [h, resetTrace]
    · simp [h, h2]

@[simp] theorem OnPlayerDestroying_fields (p : Player) (s : Transport) :
    (OnPlayerDestroying p s).volume = s.volume ∧
    (OnPlayerDestroying p s).playbackState = s.playbackState ∧
    (OnPlayerDestroying p s).activePlayer = (if some p = s.activePlayer then none else s.activePlayer) ∧
    (OnPlayerDestroying p s).nextPlayer = s.nextPlayer ∧
    (OnPlayerDestroying p s).nextCanStart = s.nextCanStart ∧
    (OnPlayerDestroying p s).muted = s.muted ∧
    (OnPlayerDestroying p s).activePlayerState = (if some p = s.activePlayer then .Destroyed else s.activePlayerState) ∧
    (OnPlayerDestroying p s).nextId = s.nextId ∧
    (OnPlayerDestroying p s).log = s.log ++ .lock ::
        ((if some p = s.activePlayer then resetTrace s.activePlayer s.activePlayer else []) ++ [.unlock]) := by
  unfold OnPlayerDestroying
  rcases s with ⟨v, ps, a, n, ncs, m, aps, nid, lg, rz⟩
  by_cases h : some p = a
  · subst h
    simp [resetTrace]
  · simp [h]


/-! ## Membership in the closed-form logs -/

theorem emitted_append (s t : Transport) (d : List Effect) (h : t.log = s.log ++ d) :
    emitted s t = d := by
  simp [emitted, h]

theorem TornDown.append_left {p : Player} {l : List Effect} (k : List Effect)
    (h : TornDown p l) : TornDown p (k ++ l) := by
  obtain ⟨b, a, rfl⟩ := h
  exact ⟨k ++ b, a, by simp⟩

theorem TornDown.append_right {p : Player} {l : List Effect} (k : List Effect)
    (h : TornDown p l) : TornDown p (l ++ k) := by
  obtain ⟨b, a, rfl⟩ := h
  exact ⟨b, a ++ k, by simp⟩

theorem TornDown.cons {p : Player} {l : List Effect} (e : Effect)
    (h : TornDown p l) : TornDown p (e :: l) :=
  TornDown.append_left [e] h

theorem tornDown_resetTrace (p : Player) (active : Option Player) :
    TornDown p (resetTrace (some p) active) :=
  ⟨[], _, by simp [resetTrace]; rfl⟩

@[simp] theorem mem_resetTrace (e : Effect) (slot active : Option Player) :
    e ∈ resetTrace slot active ↔
      ∃ p, slot = some p ∧
        (e = .detach p ∨ e = .destroy p ∨ e = .lock ∨ e = .unlock ∨
          (some p = active ∧ e = .streamEvent .Destroyed p.url)) := by
  unfold resetTrace
  rcases slot with _ | p
  · simp
  · by_cases h : some p = active
    · subst h
      simp
    · simp [h]

@[simp] theorem mem_startTrace (e : Effect) (g : Player → StreamState) (np : Player)
    (mode : StartMode) (next active : Option Player) :
    e ∈ startTrace g np mode next active ↔
      e = .lock ∨ e = .unlock ∨ (some np ≠ next ∧ e ∈ resetTrace next active) ∨
        e ∈ resetTrace active active ∨ e = .streamEvent (g np) np.url ∨
        (some np ≠ next ∧ e = .outputStop) ∨ e = .outputResume ∨
        (mode = .Immediate ∧ e = .play np) := by
  unfold startTrace
  by_cases h : some np = next <;> by_cases hm : mode = .Immediate <;>
    simp only [h, hm, if_true, if_false, List.mem_cons, List.mem_append, List.not_mem_nil,
      ne_eq, not_true_eq_false, not_false_eq_true, false_and, true_and, or_false, false_or] <;>
    tauto

@[simp] theorem mem_promoteTrace (e : Effect) (g : Player → StreamState)
    (next active : Option Player) :
    e ∈ promoteTrace g next active ↔
      ∃ n, next = some n ∧
        (e = .lock ∨ e = .unlock ∨ e ∈ resetTrace active active ∨
          e = .streamEvent (g n) n.url ∨ e = .outputResume ∨ e = .play n) := by
  unfold promoteTrace
  rcases next with _ | n
  · simp
  · simp [defaultStartMode]

@[simp] theorem mem_stateTrace (e : Effect) (old new : PlaybackState) :
    e ∈ stateTrace old new ↔
      e = .lock ∨ e = .unlock ∨ (old ≠ new ∧ e = .playbackEvent new) := by
  unfold stateTrace
  by_cases h : old = new <;> simp [h]

theorem tornDown_startTrace_active (g : Player → StreamState) (np p : Player)
    (mode : StartMode) (next : Option Player) :
    TornDown p (startTrace g np mode next (some p)) := by
  unfold startTrace
  exact (((tornDown_resetTrace p _).append_right _).append_left _).cons _

theorem tornDown_startTrace_next (g : Player → StreamState) (np p : Player)
    (mode : StartMode) (active : Option Player) (h : some np ≠ some p) :
    TornDown p (startTrace g np mode (some p) active) := by
  unfold startTrace
  rw [if_neg h]
  exact ((tornDown_resetTrace p _).append_right _).cons _

/-! ## The views of the closed-form logs -/

@[simp] theorem destroyedOf_nil : destroyedOf [] = [] := rfl

@[simp] theorem destroyedOf_append (k l : List Effect) :
    destroyedOf (k ++ l) = destroyedOf k ++ destroyedOf l := by
  simp [destroyedOf]

@[simp] theorem destroyedOf_cons (e : Effect) (l : List Effect) :
    destroyedOf (e :: l) =
      (match e with
        | .destroy p => [p]
        | _ => []) ++ destroyedOf l := by
  cases e <;> simp [destroyedOf]

@[simp] theorem destroyedOf_ite (c : Prop) [Decidable c] (k l : List Effect) :
    destroyedOf (if c then k else l) = if c then destroyedOf k else destroyedOf l := by
  split <;> rfl

@[simp] theorem createdOf_nil : createdOf [] = [] := rfl

@[simp] theorem createdOf_append (k l : List Effect) :
    createdOf (k ++ l) = createdOf k ++ createdOf l := by
  simp [createdOf]

@[simp] theorem createdOf_cons (e : Effect) (l : List Effect) :
    createdOf (e :: l) =
      (match e with
        | .create p => [p]
        | _ => []) ++ createdOf l := by
  cases e <;> simp [createdOf]

@[simp] theorem createdOf_ite (c : Prop) [Decidable c] (k l : List Effect) :
    createdOf (if c then k else l) = if c then createdOf k else createdOf l := by
  split <;> rfl

@[simp] theorem playbackEventsOf_nil : playbackEventsOf [] = [] := rfl

@[simp] theorem playbackEventsOf_append (k l : List Effect) :
    playbackEventsOf (k ++ l) = playbackEventsOf k ++ playbackEventsOf l := by
  simp [playbackEventsOf]

@[simp] theorem playbackEventsOf_cons (e : Effect) (l : List Effect) :
    playbackEventsOf (e :: l) =
      (match e with
        | .playbackEvent st => [st]
        | _ => []) ++ playbackEventsOf l := by
  cases e <;> simp [playbackEventsOf]

@[simp] theorem playbackEventsOf_ite (c : Prop) [Decidable c] (k l : List Effect) :
    playbackEventsOf (if c then k else l) =
      if c then playbackEventsOf k else playbackEventsOf l := by
  split <;> rfl

@[simp] theorem views_resetTrace (slot active : Option Player) :
    destroyedOf (resetTrace slot active) = slot.toList ∧
    createdOf (resetTrace slot active) = [] ∧
    playbackEventsOf (resetTrace slot active) = [] := by
  unfold resetTrace
  rcases slot with _ | p
  · simp
  · by_cases h : some p = active
    · subst h
      simp
    · simp [h]

@[simp] theorem views_startTrace (g : Player → StreamState) (np : Player) (mode : StartMode)
    (next active : Option Player) :
    destroyedOf (startTrace g np mode next active) =
      (if some np = next then [] else next.toList) ++ active.toList ∧
    createdOf (startTrace g np mode next active) = [] ∧
    playbackEventsOf (startTrace g np mode next active) = [] := by
  unfold startTrace
  by_cases h : some np = next <;> cases mode <;> simp [h]

@[simp] theorem views_promoteTrace (g : Player → StreamState) (next active : Option Player) :
    destroyedOf (promoteTrace g next active) = (if next.isSome then active.toList else []) ∧
    createdOf (promoteTrace g next active) = [] ∧
    playbackEventsOf (promoteTrace g next active) = [] := by
  unfold promoteTrace
  rcases next with _ | n <;> simp

@[simp] theorem views_stateTrace (old new : PlaybackState) :
    destroyedOf (stateTrace old new) = [] ∧
    createdOf (stateTrace old new) = [] ∧
    playbackEventsOf (stateTrace old new) = if old = new then [] else [new] := by
  unfold stateTrace
  by_cases h : old = new <;> simp [h]

/-! ## Detach before destroy -/

@[simp] theorem dbd_nil : DetachBeforeDestroy [] := by
  intro i p h
  simp at h

@[simp] theorem dbd_cons (e : Effect) (l : List Effect) (h : e.isTeardown = false) :
    DetachBeforeDestroy (e :: l) ↔ DetachBeforeDestroy l := by
  constructor
  · intro hl i p hi
    obtain ⟨j, hj, hd⟩ := hl (i + 1) p (by simpa using hi)
    have hji : j = i := by omega
    subst hji
    rcases j with _ | j
    · simp at hd
      subst hd
      simp [Effect.isTeardown] at h
    · exact ⟨j, rfl, by simpa using hd⟩
  · intro hl i p hi
    rcases i with _ | i
    · simp at hi
      subst hi
      simp [Effect.isTeardown] at h
    · obtain ⟨j, hj, hd⟩ := hl i p (by simpa using hi)
      exact ⟨j + 1, by omega, by simpa using hd⟩

@[simp] theorem dbd_detach_destroy (p : Player) (l : List Effect) :
    DetachBeforeDestroy (.detach p :: .destroy p :: l) ↔ DetachBeforeDestroy l := by
  constructor
  · intro hl i q hi
    obtain ⟨j, hj, hd⟩ := hl (i + 2) q (by simpa using hi)
    have hji : j = i + 1 := by omega
    subst hji
    rcases i with _ | i
    · simp at hd
    · exact ⟨i, rfl, by simpa using hd⟩
  · intro hl i q hi
    rcases i with _ | _ | i
    · simp at hi
    · simp at hi
      subst hi
      exact ⟨0, rfl, rfl⟩
    · obtain ⟨j, hj, hd⟩ := hl i q (by simpa using hi)
      exact ⟨j + 2, by omega, by simpa using hd⟩

@[simp] theorem dbd_resetTrace (slot active : Option Player) (l : List Effect) :
    DetachBeforeDestroy (resetTrace slot active ++ l) ↔ DetachBeforeDestroy l := by
  unfold resetTrace
  rcases slot with _ | p
  · simp
  · by_cases h : some p = active <;> simp [h, Effect.isTeardown]

@[simp] theorem dbd_startTrace (g : Player → StreamState) (np : Player) (mode : StartMode)
    (next active : Option Player) (l : List Effect) :
    DetachBeforeDestroy (startTrace g np mode next active ++ l) ↔ DetachBeforeDestroy l := by
  unfold startTrace
  by_cases h : some np = next <;> cases mode <;> simp [h, Effect.isTeardown]

@[simp] theorem dbd_promoteTrace (g : Player → StreamState) (next active : Option Player)
    (l : List Effect) :
    DetachBeforeDestroy (promoteTrace g next active ++ l) ↔ DetachBeforeDestroy l := by
  unfold promoteTrace
  rcases next with _ | n <;> simp

@[simp] theorem dbd_stateTrace (old new : PlaybackState) (l : List Effect) :
    DetachBeforeDestroy (stateTrace old new ++ l) ↔ DetachBeforeDestroy l := by
  unfold stateTrace
  by_cases h : old = new <;> simp [h, Effect.isTeardown]

@[simp] theorem dbd_resetTrace_alone (slot active : Option Player) :
    DetachBeforeDestroy (resetTrace slot active) := by
  simpa using dbd_resetTrace slot active []

@[simp] theorem dbd_startTrace_alone (g : Player → StreamState) (np : Player) (mode : StartMode)
    (next active : Option Player) :
    DetachBeforeDestroy (startTrace g np mode next active) := by
  simpa using dbd_startTrace g np mode next active []

@[simp] theorem dbd_promoteTrace_alone (g : Player → StreamState) (next active : Option Player) :
    DetachBeforeDestroy (promoteTrace g next active) := by
  simpa using dbd_promoteTrace g next active []

@[simp] theorem dbd_stateTrace_alone (old new : PlaybackState) :
    DetachBeforeDestroy (stateTrace old new) := by
  simpa using dbd_stateTrace old new []

theorem dbd_append (k l : List Effect) (hk : DetachBeforeDestroy k)
    (hl : DetachBeforeDestroy l) : DetachBeforeDestroy (k ++ l) := by
  intro i p hi
  by_cases h : i < k.length
  · rw [List.getElem?_append_left h] at hi
    obtain ⟨j, hj, hd⟩ := hk i p hi
    exact ⟨j, hj, by rw [List.getElem?_append_left (by omega)]; exact hd⟩
  · rw [List.getElem?_append_right (by omega)] at hi
    obtain ⟨j, hj, hd⟩ := hl _ p hi
    exact ⟨j + k.length, by omega, by
      rw [List.getElem?_append_right (by omega)]; simpa using hd⟩

/-! ## What one call does -/

theorem step_log (g : Player → StreamState) (op : Op) (s : Transport) :
    (step g op s).log = s.log ++ emitted s (step g op s) := by
  cases op <;> simp [step, emitted]
  case Start uri gain mode created => cases created <;> simp

theorem step_created (g : Player → StreamState) (op : Op) (s : Transport) :
    (createdOf (emitted s (step g op s)) = [] ∧ (step g op s).nextId = s.nextId) ∨
    (∃ uri, createdOf (emitted s (step g op s)) = [⟨s.nextId, uri⟩] ∧
      (step g op s).nextId = s.nextId + 1) := by
  rcases s with ⟨v, ps, _ | a, _ | n, ncs, m, aps, nid, lg, rz⟩ <;>
    rcases op with ⟨uri, gain, mode, _ | _⟩ | ⟨uri, gain, _ | _⟩ | _ | _ | _ | sec | vol | mu |
      _ | p | p | p | p | p | p <;>
    simp [step, emitted]
  all_goals (by_cases hu : uri.length = 0 <;> simp [hu])

theorem step_playbackEvents (g : Player → StreamState) (op : Op) (s : Transport) :
    playbackEventsOf (emitted s (step g op s)) =
      if s.playbackState = (step g op s).playbackState then []
      else [(step g op s).playbackState] := by
  rcases s with ⟨v, ps, _ | a, _ | n, ncs, m, aps, nid, lg, rz⟩ <;>
    rcases op with ⟨uri, gain, mode, _ | _⟩ | ⟨uri, gain, _ | _⟩ | _ | _ | _ | sec | vol | mu |
      _ | p | p | p | p | p | p <;>
    simp [step, emitted]
  all_goals (split_ifs <;> simp_all)

theorem step_conservation (g : Player → StreamState) (op : Op) (s : Transport)
    (hf : ∀ p ∈ held s, p.id < s.nextId) :
    (held s ++ createdOf (emitted s (step g op s))).Perm
      (held (step g op s) ++ destroyedOf (emitted s (step g op s))) := by
  rcases s with ⟨v, ps, _ | a, _ | n, ncs, m, aps, nid, lg, rz⟩ <;>
    rcases op with ⟨uri, gain, mode, _ | _⟩ | ⟨uri, gain, _ | _⟩ | _ | _ | _ | sec | vol | mu |
      _ | p | p | p | p | p | p <;>
    simp [step, emitted, held] at hf ⊢
  all_goals (try split_ifs) <;> (try simp_all)
  all_goals
    first
    | (rename_i h
       subst h
       simp at hf)
    | (rw [List.perm_iff_count]
       intro y
       simp only [List.count_cons, List.count_nil]
       omega)

theorem step_dbd (g : Player → StreamState) (op : Op) (s : Transport) :
    DetachBeforeDestroy (emitted s (step g op s)) := by
  rcases s with ⟨v, ps, _ | a, _ | n, ncs, m, aps, nid, lg, rz⟩ <;>
    rcases op with ⟨uri, gain, mode, _ | _⟩ | ⟨uri, gain, _ | _⟩ | _ | _ | _ | sec | vol | mu |
      _ | p | p | p | p | p | p <;>
    simp [step, emitted, Effect.isTeardown]
  all_goals (split_ifs <;> simp [Effect.isTeardown])

/-! ## Invariants along a run -/

theorem mem_createdOf (p : Player) (l : List Effect) : p ∈ createdOf l ↔ .create p ∈ l := by
  induction l with
  | nil => simp
  | cons e l ih => cases e <;> simp [ih]

theorem mem_destroyedOf (p : Player) (l : List Effect) :
    p ∈ destroyedOf l ↔ .destroy p ∈ l := by
  induction l with
  | nil => simp
  | cons e l ih => cases e <;> simp [ih]

theorem count_destroy (p : Player) (l : List Effect) :
    l.count (.destroy p) = (destroyedOf l).count p := by
  induction l with
  | nil => simp
  | cons e l ih =>
    cases e <;> simp [ih, List.count_cons]

theorem run_nil (s : Transport) : run [] s = s := rfl

theorem run_cons (c : (Player → StreamState) × Op) (cs : List ((Player → StreamState) × Op))
    (s : Transport) : run (c :: cs) s = run cs (step c.1 c.2 s) := rfl

theorem accounted_new (st0 : StreamState) : Accounted (new st0) := by
  simp [Accounted, new, emit, held, Effect.isTeardown]

theorem accounted_step (g : Player → StreamState) (op : Op) (s : Transport)
    (h : Accounted s) : Accounted (step g op s) := by
  obtain ⟨hperm, hnd, hid, hdbd⟩ := h
  have hheld : ∀ p ∈ held s, p.id < s.nextId := fun p hp =>
    hid p (hperm.mem_iff.2 (List.mem_append_left _ hp))
  have hcons := step_conservation g op s hheld
  have hlog := step_log g op s
  refine ⟨?_, ?_, ?_, ?_⟩
  · rw [hlog, createdOf_append, destroyedOf_append]
    rw [List.perm_iff_count] at hperm hcons ⊢
    intro x
    have h1 := hperm x
    have h2 := hcons x
    simp only [List.count_append] at h1 h2 ⊢
    omega
  · rw [hlog, createdOf_append]
    rcases step_created g op s with ⟨hc, -⟩ | ⟨uri, hc, -⟩
    · simpa [hc] using hnd
    · rw [hc, List.nodup_append]
      refine ⟨hnd, by simp, ?_⟩
      intro x hx hx2
      have := hid x hx
      simp at hx2
      subst hx2
      simp at this
  · rw [hlog, createdOf_append]
    intro p hp
    rcases step_created g op s with ⟨hc, hn⟩ | ⟨uri, hc, hn⟩
    · rw [hc] at hp
      simp at hp
      rw [hn]
      exact hid p hp
    · rw [hc] at hp
      rw [hn]
      simp at hp
      rcases hp with hp | hp
      · have := hid p hp
        omega
      · subst hp
        simp
  · rw [hlog]
    exact dbd_append _ _ hdbd (step_dbd g op s)

theorem accounted_run (calls : List ((Player → StreamState) × Op)) (s : Transport)
    (h : Accounted s) : Accounted (run calls s) := by
  induction calls generalizing s with
  | nil => exact h
  | cons c cs ih => exact ih _ (accounted_step c.1 c.2 s h)

theorem held_nodup (s : Transport) (h : Accounted s) : (held s ++ destroyedOf s.log).Nodup :=
  h.1.nodup_iff.1 h.2.1

theorem announced_new (st0 : StreamState) : Announced (new st0) := by
  simp [Announced, new, emit]

theorem announced_step (g : Player → StreamState) (op : Op) (s : Transport)
    (h : Announced s) : Announced (step g op s) := by
  obtain ⟨hch, hlast⟩ := h
  have hpe := step_playbackEvents g op s
  have hlog := step_log g op s
  unfold Announced
  rw [hlog, playbackEventsOf_append, hpe]
  by_cases hsame : s.playbackState = (step g op s).playbackState
  · rw [if_pos hsame, List.append_nil, ← hsame]
    exact ⟨hch, hlast⟩
  · rw [if_neg hsame, ← List.cons_append]
    refine ⟨?_, List.getLast?_concat _⟩
    apply List.Chain'.append hch (by simp)
    intro x hx y hy
    rw [hlast] at hx
    simp at hx hy
    subst hx hy
    exact hsame

theorem announced_run (calls : List ((Player → StreamState) × Op)) (s : Transport)
    (h : Announced s) : Announced (run calls s) := by
  induction calls generalizing s with
  | nil => exact h
  | cons c cs ih => exact ih _ (announced_step c.1 c.2 s h)

theorem loaded_step (g : Player → StreamState) (op : Op) (s : Transport)
    (hop : Admitted op s = true)
    (h : s.playbackState ≠ .Stopped → s.activePlayer.isSome) :
    (step g op s).playbackState ≠ .Stopped → (step g op s).activePlayer.isSome := by
  rcases s with ⟨v, ps, _ | a, _ | n, ncs, m, aps, nid, lg, rz⟩ <;>
    rcases op with ⟨uri, gain, mode, _ | _⟩ | ⟨uri, gain, _ | _⟩ | _ | _ | _ | sec | vol | mu |
      _ | p | p | p | p | p | p <;>
    simp [step, Admitted] at h hop ⊢
  all_goals first
    | tauto
    | (split_ifs <;> simp_all)

theorem loaded_run (calls : List ((Player → StreamState) × Op)) (s : Transport)
    (hadm : AdmittedRun calls s = true)
    (h : s.playbackState ≠ .Stopped → s.activePlayer.isSome) :
    (run calls s).playbackState ≠ .Stopped → (run calls s).activePlayer.isSome := by
  induction calls generalizing s with
  | nil => exact h
  | cons c cs ih =>
    simp only [AdmittedRun, Bool.and_eq_true] at hadm
    exact ih _ hadm.2 (loaded_step c.1 c.2 s hadm.1 h)

/-! ## The stream events of the closed-form logs -/

@[simp] theorem streamEventsOf_nil : streamEventsOf [] = [] := rfl

@[simp] theorem streamEventsOf_append (k l : List Effect) :
    streamEventsOf (k ++ l) = streamEventsOf k ++ streamEventsOf l := by
  simp [streamEventsOf]

@[simp] theorem streamEventsOf_cons (e : Effect) (l : List Effect) :
    streamEventsOf (e :: l) =
      (match e with
        | .streamEvent type url => [(type, url)]
        | _ => []) ++ streamEventsOf l := by
  cases e <;> simp [streamEventsOf]

@[simp] theorem streamEventsOf_ite (c : Prop) [Decidable c] (k l : List Effect) :
    streamEventsOf (if c then k else l) = if c then streamEventsOf k else streamEventsOf l := by
  split <;> rfl

@[simp] theorem streamEventsOf_resetTrace (slot active : Option Player) :
    streamEventsOf (resetTrace slot active) =
      match slot with
      | some p => if some p = active then [(.Destroyed, p.url)] else []
      | none => [] := by
  unfold resetTrace
  rcases slot with _ | p
  · simp
  · by_cases h : some p = active <;> simp [h]

@[simp] theorem streamEventsOf_startTrace (g : Player → StreamState) (np : Player)
    (mode : StartMode) (next active : Option Player) :
    streamEventsOf (startTrace g np mode next active) =
      (if some np = next then [] else streamEventsOf (resetTrace next active)) ++
        (streamEventsOf (resetTrace active active) ++ [(g np, np.url)]) := by
  unfold startTrace
  by_cases h : some np = next <;> cases mode <;> simp [h]

@[simp] theorem streamEventsOf_promoteTrace (g : Player → StreamState)
    (next active : Option Player) :
    streamEventsOf (promoteTrace g next active) =
      match next with
      | some n => streamEventsOf (resetTrace active active) ++ [(g n, n.url)]
      | none => [] := by
  unfold promoteTrace
  rcases next with _ | n <;> simp

@[simp] theorem streamEventsOf_stateTrace (old new : PlaybackState) :
    streamEventsOf (stateTrace old new) = [] := by
  unfold stateTrace
  by_cases h : old = new <;> simp [h]

theorem tornDown_promoteTrace (g : Player → StreamState) (n a : Player) :
    TornDown a (promoteTrace g (some n) (some a)) := by
  unfold promoteTrace
  exact tornDown_startTrace_active _ _ _ _ _

/-! ## The ghost record of every function -/

@[simp] theorem emit_raised (e : Effect) (s : Transport) :
    (emit e s).raised = s.raised := by
  rfl

@[simp] theorem SetPlaybackState_raised (st : PlaybackState) (s : Transport) :
    (SetPlaybackState st s).raised = s.raised := by
  unfold SetPlaybackState
  by_cases h : s.playbackState = st <;> simp [h, emit]

@[simp] theorem RaiseStreamEvent_raised (type : StreamState) (p : Player) (s : Transport) :
    (RaiseStreamEvent type p s).raised = s.raised ++ if some p = s.activePlayer then [(type, p.url, s.activePlayer)] else [] := by
  unfold RaiseStreamEvent
  by_cases h : some p = s.activePlayer <;> simp [h, emit]

@[simp] theorem ResetNextPlayer_raised (s : Transport) :
    (ResetNextPlayer s).raised = s.raised ++ resetRaised s.nextPlayer s.activePlayer := by
  unfold ResetNextPlayer resetRaised
  rcases h : s.nextPlayer with _ | p
  · simp [h]
  · by_cases h2 : some p = s.activePlayer <;> simp [h2]

@[simp] theorem ResetActivePlayer_raised (s : Transport) :
    (ResetActivePlayer s).raised = s.raised ++ resetRaised s.activePlayer s.activePlayer := by
  unfold ResetActivePlayer resetRaised
  rcases h : s.activePlayer with _ | p <;> simp [h]

@[simp] theorem SetNextCanStart_raised (b : Bool) (s : Transport) :
    (SetNextCanStart b s).raised = s.raised := by
  simp [SetNextCanStart, emit]

@[simp] theorem StopInternal_raised (sup so : Bool) (ex : Option Player) (s : Transport) :
    (StopInternal sup so ex s).raised = s.raised ++
      if so then
        resetRaised s.nextPlayer s.activePlayer ++
          (if s.activePlayer = ex then [] else resetRaised s.activePlayer s.activePlayer)
      else [] := by
  unfold StopInternal
  rcases s with ⟨v, ps, _ | a, _ | n, ncs, m, aps, nid, lg, rz⟩ <;>
    rcases ex with _ | e <;> cases sup <;> cases so <;> simp
  all_goals (by_cases hae : a = e <;> simp [hae])

@[simp] theorem StartWithPlayer_raised (g : Player → StreamState) (np : Player) (mode : StartMode) (s : Transport) :
    (StartWithPlayer g (some np) mode s).raised = s.raised ++ startRaised g np s.nextPlayer s.activePlayer := by
  unfold StartWithPlayer startRaised
  by_cases h : some np = s.nextPlayer <;> cases mode <;> simp [h, resetRaised]

@[simp] theorem Create_true_raised (uri : String) (s : Transport) :
    ((Player.Create uri true s).2).raised = s.raised := by
  simp [Player.Create]

@[simp] theorem Start_raised (g : Player → StreamState) (uri : String) (gain : Gain) (mode : StartMode) (s : Transport) :
    (Start g uri gain mode true s).raised = s.raised ++ startRaised g ⟨s.nextId, uri⟩ s.nextPlayer s.activePlayer := by
  simp [Start]

@[simp] theorem Stop_raised (s : Transport) :
    (Stop s).raised = s.raised ++
      (resetRaised s.nextPlayer s.activePlayer ++ resetRaised s.activePlayer s.activePlayer) := by
  rcases s with ⟨v, ps, _ | a, _ | n, ncs, m, aps, nid, lg, rz⟩ <;> simp [Stop, resetRaised]

@[simp] theorem ReloadOutput_raised (s : Transport) :
    (ReloadOutput s).raised = s.raised ++
      (resetRaised s.nextPlayer s.activePlayer ++ resetRaised s.activePlayer s.activePlayer) := by
  simp [ReloadOutput]

@[simp] theorem PrepareNextTrack_raised (g : Player → StreamState) (uri : String) (gain : Gain) (created : Bool) (s : Transport) :
    (PrepareNextTrack g uri gain created s).raised = s.raised ++
      (resetRaised s.nextPlayer s.activePlayer ++
        if uri.length ≠ 0 ∧ created = true ∧ s.nextCanStart = true then
          startRaised g ⟨s.nextId, uri⟩ (some ⟨s.nextId, uri⟩) s.activePlayer
        else []) := by
  unfold PrepareNextTrack
  by_cases hu : uri.length = 0 <;> cases created <;> cases hn : s.nextCanStart <;>
    simp [hu, hn]

@[simp] theorem Pause_raised (s : Transport) :
    ((Pause s).2).raised = s.raised := by
  unfold Pause
  cases h : s.activePlayer <;> simp [h]

@[simp] theorem Resume_raised (s : Transport) :
    ((Resume s).2).raised = s.raised := by
  unfold Resume
  cases h : s.activePlayer <;> simp [h]

@[simp] theorem SetPosition_raised (seconds : ℚ) (s : Transport) :
    (SetPosition seconds s).raised = s.raised := by
  unfold SetPosition
  cases h : s.activePlayer <;> by_cases hp : s.playbackState = .Playing <;> simp [h, hp]

@[simp] theorem SetMuted_raised (m : Bool) (s : Transport) :
    (SetMuted m s).raised = s.raised := by
  unfold SetMuted
  by_cases h : s.muted = m <;> simp [h]

@[simp] theorem SetVolume_raised (v : ℚ) (s : Transport) :
    (SetVolume v s).raised = s.raised := by
  unfold SetVolume
  by_cases h : s.volume = max 0 (min 1 v) <;> cases hm : s.muted <;> simp [h, hm]

@[simp] theorem OnPlayerBuffered_raised (p : Player) (s : Transport) :
    (OnPlayerBuffered p s).raised = s.raised ++ if some p = s.activePlayer then [(.Buffered, p.url, s.activePlayer)] else [] := by
  unfold OnPlayerBuffered
  by_cases h : some p = s.activePlayer <;> simp [h]

@[simp] theorem OnPlayerStarted_raised (p : Player) (s : Transport) :
    (OnPlayerStarted p s).raised = s.raised ++ if some p = s.activePlayer then [(.Playing, p.url, s.activePlayer)] else [] := by
  unfold OnPlayerStarted
  by_cases h : some p = s.activePlayer <;> simp [h]

@[simp] theorem OnPlayerAlmostEnded_raised (g : Player → StreamState) (p : Player) (s : Transport) :
    (OnPlayerAlmostEnded g p s).raised = s.raised ++
      (promoteRaised g s.nextPlayer s.activePlayer ++
        if some p = (if s.nextPlayer.isSome then s.nextPlayer else s.activePlayer) then
          [(.AlmostDone, p.url, (if s.nextPlayer.isSome then s.nextPlayer else s.activePlayer))]
        else []) := by
  unfold OnPlayerAlmostEnded promoteRaised
  rcases s with ⟨v, ps, a, _ | n, ncs, m, aps, nid, lg, rz⟩ <;> simp

@[simp] theorem OnPlayerFinished_raised (g : Player → StreamState) (p : Player) (s : Transport) :
    (OnPlayerFinished g p s).raised = s.raised ++
      if some p = s.activePlayer then
        (.Finished, p.url, s.activePlayer) :: promoteRaised g s.nextPlayer s.activePlayer
      else [] := by
  unfold OnPlayerFinished promoteRaised
  rcases s with ⟨v, ps, a, _ | n, ncs, m, aps, nid, lg, rz⟩ <;>
    by_cases h : some p = a <;> simp [h]

@[simp] theorem OnPlayerOpenFailed_raised (p : Player) (s : Transport) :
    (OnPlayerOpenFailed p s).raised = s.raised ++
      if some p = s.activePlayer then
        resetRaised s.activePlayer s.activePlayer ++ resetRaised s.nextPlayer none
      else if some p = s.nextPlayer then resetRaised s.nextPlayer s.activePlayer
      else [] := by
  unfold OnPlayerOpenFailed
  rcases s with ⟨v, ps, a, n, ncs, m, aps, nid, lg, rz⟩
  by_cases h : some p = a
  · subst h
    rcases n with _ | n <;> simp [resetRaised]
  · by_cases h2 : some p = n
    · subst h2
      simp [h, resetRaised]
    · simp [h, h2]

@[simp] theorem OnPlayerDestroying_raised (p : Player) (s : Transport) :
    (OnPlayerDestroying p s).raised = s.raised ++ if some p = s.activePlayer then resetRaised s.activePlayer s.activePlayer else [] := by
  unfold OnPlayerDestroying
  rcases s with ⟨v, ps, a, n, ncs, m, aps, nid, lg, rz⟩
  by_cases h : some p = a
  · subst h
    simp [resetRaised]
  · simp [h]

/-! ## The ghost record along a run -/

theorem step_raised (g : Player → StreamState) (op : Op) (s : Transport) :
    (step g op s).raised = s.raised ++ raisedIn s (step g op s) := by
  rcases op with ⟨uri, gain, mode, _ | _⟩ | ⟨uri, gain, _ | _⟩ | _ | _ | _ | sec | vol | mu |
      _ | p | p | p | p | p | p <;>
    simp [step, raisedIn]

theorem step_raised_events (g : Player → StreamState) (op : Op) (s : Transport) :
    streamEventsOf (emitted s (step g op s)) = (raisedIn s (step g op s)).map eventOf := by
  rcases s with ⟨v, ps, _ | a, _ | n, ncs, m, aps, nid, lg, rz⟩ <;>
    rcases op with ⟨uri, gain, mode, _ | _⟩ | ⟨uri, gain, _ | _⟩ | _ | _ | _ | sec | vol | mu |
      _ | p | p | p | p | p | p <;>
    simp [step, emitted, raisedIn, resetRaised, startRaised, promoteRaised, eventOf]
  all_goals (split_ifs <;> simp_all [eventOf])

theorem step_raised_fromActive (g : Player → StreamState) (op : Op) (s : Transport) :
    ∀ x ∈ raisedIn s (step g op s), FromActive x := by
  rcases s with ⟨v, ps, _ | a, _ | n, ncs, m, aps, nid, lg, rz⟩ <;>
    rcases op with ⟨uri, gain, mode, _ | _⟩ | ⟨uri, gain, _ | _⟩ | _ | _ | _ | sec | vol | mu |
      _ | p | p | p | p | p | p <;>
    simp [step, raisedIn, resetRaised, startRaised, promoteRaised, FromActive]
  all_goals aesop

theorem step_raised_state (g : Player → StreamState) (op : Op) (s : Transport) :
    (step g op s).activePlayerState =
      ((raisedIn s (step g op s)).getLast?.map fun x => x.1).getD s.activePlayerState := by
  rcases s with ⟨v, ps, _ | a, _ | n, ncs, m, aps, nid, lg, rz⟩ <;>
    rcases op with ⟨uri, gain, mode, _ | _⟩ | ⟨uri, gain, _ | _⟩ | _ | _ | _ | sec | vol | mu |
      _ | p | p | p | p | p | p <;>
    simp [step, raisedIn, resetRaised, startRaised, promoteRaised]
  all_goals (split_ifs <;> simp_all)

theorem Raises.refl (s : Transport) : Raises s s :=
  ⟨[], by simp, by simp, by simp, by simp⟩

theorem Raises.trans {s t u : Transport} (h1 : Raises s t) (h2 : Raises t u) : Raises s u := by
  obtain ⟨r1, hr1, he1, hf1, ha1⟩ := h1
  obtain ⟨r2, hr2, he2, hf2, ha2⟩ := h2
  refine ⟨r1 ++ r2, by rw [hr2, hr1, List.append_assoc], by
    rw [he2, he1, List.map_append, List.append_assoc], ?_, ?_⟩
  · intro x hx
    rcases List.mem_append.1 hx with h | h
    · exact hf1 x h
    · exact hf2 x h
  · rcases List.eq_nil_or_concat r2 with h | ⟨l, x, h⟩
    · subst h
      rw [ha2, ha1]
      simp
    · subst h
      rw [ha2]
      simp [List.concat_eq_append, List.getLast?_append]

theorem raises_step (g : Player → StreamState) (op : Op) (s : Transport) :
    Raises s (step g op s) := by
  refine ⟨raisedIn s (step g op s), step_raised g op s, ?_, step_raised_fromActive g op s,
    step_raised_state g op s⟩
  rw [step_log g op s, streamEventsOf_append, step_raised_events]

theorem raises_run (calls : List ((Player → StreamState) × Op)) (s : Transport) :
    Raises s (run calls s) := by
  induction calls generalizing s with
  | nil => exact Raises.refl s
  | cons c cs ih => exact Raises.trans (raises_step c.1 c.2 s) (ih _)

/-! ## Properties of the transport -/

/-- C1: in every state reachable from a fresh transport by a finite sequence of calls (public
operations and listener callbacks, every created session having a fresh identity), a session
held in the next slot is not the session in the active slot. -/
theorem C1_single_ownership (st0 : StreamState) (calls : List ((Player → StreamState) × Op))
    (p : Player) (hn : (run calls (new st0)).nextPlayer = some p) :
    (run calls (new st0)).activePlayer ≠ some p := by
  have h := held_nodup _ (accounted_run calls _ (accounted_new st0))
  intro ha
  simp [held, ha, hn] at h

/-- C1 at a concrete run: after `Start("a")` and `PrepareNextTrack("b")` the next slot holds the
session of `b`, and the active slot does not. -/
theorem C1_single_ownership_witness :
    (run [(idle, .Start "a" unity .Immediate true), (idle, .PrepareNextTrack "b" unity true)]
      (new .Buffering)).activePlayer ≠ some ⟨1, "b"⟩ :=
  C1_single_ownership .Buffering
    [(idle, .Start "a" unity .Immediate true), (idle, .PrepareNextTrack "b" unity true)]
    ⟨1, "b"⟩ (by decide)

/-- C2: along every finite sequence of calls, `Destroy` is issued at most once to each session,
every `Destroy` is immediately preceded by a `Detach` of the same session, and every created
session that is in neither slot has been destroyed. -/
theorem C2_freed_exactly_once (st0 : StreamState) (calls : List ((Player → StreamState) × Op)) :
    (∀ p, (run calls (new st0)).log.count (.destroy p) ≤ 1) ∧
    (∀ i p, (run calls (new st0)).log[i]? = some (.destroy p) →
      ∃ j, j + 1 = i ∧ (run calls (new st0)).log[j]? = some (.detach p)) ∧
    (∀ p, .create p ∈ (run calls (new st0)).log →
      (run calls (new st0)).activePlayer ≠ some p →
      (run calls (new st0)).nextPlayer ≠ some p →
      .destroy p ∈ (run calls (new st0)).log) := by
  have hacc := accounted_run calls _ (accounted_new st0)
  have hnd := held_nodup _ hacc
  refine ⟨fun p => ?_, hacc.2.2.2, fun p hc ha hn => ?_⟩
  · rw [count_destroy]
    exact List.nodup_iff_count_le_one.1 (List.Nodup.of_append_right hnd) p
  · have hp := hacc.1.mem_iff.1 ((mem_createdOf p _).2 hc)
    rw [List.mem_append] at hp
    rcases hp with hp | hp
    · simp [held] at hp
      rcases hp with hp | hp
      · exact absurd hp ha
      · exact absurd hp hn
    · exact (mem_destroyedOf p _).1 hp

/-- C2 at a concrete run: after `Start("a")`, `PrepareNextTrack("b")` and `Stop()` the session
of `a` is in neither slot and has been destroyed. -/
theorem C2_freed_exactly_once_witness :
    Effect.destroy ⟨0, "a"⟩ ∈ afterStop.log :=
  (C2_freed_exactly_once .Buffering
    [(idle, .Start "a" unity .Immediate true), (idle, .PrepareNextTrack "b" unity true),
      (idle, .Stop)]).2.2 ⟨0, "a"⟩ (by decide) (by decide) (by decide)

/-- C4: whenever the next session is promoted (by `OnPlayerAlmostEnded`, by `OnPlayerFinished`
from the active session, or by `PrepareNextTrack` while `nextCanStart` is set) the output device
gets no `Stop` and gets `Resume`; and for an active session `p` with a next session prepared,
`OnPlayerAlmostEnded(p)` followed by `OnPlayerFinished(p)` issues no `Stop` to the output. -/
theorem C4_gapless_handoff (g g2 : Player → StreamState) (p n : Player) (uri : String)
    (gain : Gain) (s : Transport) :
    (s.nextPlayer = some n →
      (OnPlayerAlmostEnded g p s).activePlayer = some n ∧
      .outputStop ∉ emitted s (OnPlayerAlmostEnded g p s) ∧
      .outputResume ∈ emitted s (OnPlayerAlmostEnded g p s)) ∧
    (s.activePlayer = some p → s.nextPlayer = some n →
      (OnPlayerFinished g p s).activePlayer = some n ∧
      .outputStop ∉ emitted s (OnPlayerFinished g p s) ∧
      .outputResume ∈ emitted s (OnPlayerFinished g p s)) ∧
    (uri.length ≠ 0 → s.nextCanStart = true →
      (PrepareNextTrack g uri gain true s).activePlayer = some ⟨s.nextId, uri⟩ ∧
      .outputStop ∉ emitted s (PrepareNextTrack g uri gain true s) ∧
      .outputResume ∈ emitted s (PrepareNextTrack g uri gain true s)) ∧
    (s.activePlayer = some p → s.nextPlayer = some n →
      .outputStop ∉ emitted s (OnPlayerFinished g2 p (OnPlayerAlmostEnded g p s))) := by
  refine ⟨fun hn => ?_, fun ha hn => ?_, fun hu hc => ?_, fun ha hn => ?_⟩
  · simp [emitted, hn]
  · simp [emitted, hn, ha]
  · simp [emitted, hu, hc]
  · simp [emitted, hn, ha]
    split_ifs <;> simp

/-- C4 at a transport playing `a` with `b` prepared. -/
theorem C4_gapless_handoff_witness :
    ((OnPlayerAlmostEnded idle ⟨0, "a"⟩ playingWithNext).activePlayer = some ⟨1, "b"⟩ ∧
      .outputStop ∉ emitted playingWithNext (OnPlayerAlmostEnded idle ⟨0, "a"⟩ playingWithNext) ∧
      .outputResume ∈ emitted playingWithNext (OnPlayerAlmostEnded idle ⟨0, "a"⟩ playingWithNext)) ∧
    .outputStop ∉ emitted playingWithNext
      (OnPlayerFinished idle ⟨0, "a"⟩ (OnPlayerAlmostEnded idle ⟨0, "a"⟩ playingWithNext)) :=
  ⟨(C4_gapless_handoff idle idle ⟨0, "a"⟩ ⟨1, "b"⟩ "c" unity playingWithNext).1 (by decide),
    (C4_gapless_handoff idle idle ⟨0, "a"⟩ ⟨1, "b"⟩ "c" unity playingWithNext).2.2.2
      (by decide) (by decide)⟩

/-- C5: `RaiseStreamEvent(type, p)` raises `StreamEvent(type, url of p)` exactly when `p` is the
active session, and then `streamState` becomes `type`; otherwise `streamState` is unchanged and
no stream event is raised.  Across the transport: in every call from every state, and along every
run from construction, each stream event raised is noted in the ghost record together with the
content of the active slot at that moment, that slot holds a session, and the event carries the
url of that session; and `GetStreamState()` after a call is the type of the last stream event the
call raised, unchanged when it raised none, so along a run it is always the type of the last
stream event raised (the initial value before the first). -/
theorem C5_stream_events_from_active (type : StreamState) (p : Player) (s : Transport) :
    (.streamEvent type p.url ∈ emitted s (RaiseStreamEvent type p s) ↔ some p = s.activePlayer) ∧
    ((RaiseStreamEvent type p s).activePlayerState =
      if some p = s.activePlayer then type else s.activePlayerState) ∧
    (∀ t u, .streamEvent t u ∈ emitted s (RaiseStreamEvent type p s) →
      s.activePlayer = some p ∧ t = type ∧ u = p.url) ∧
    (some p ≠ s.activePlayer →
      (GetStreamState (RaiseStreamEvent type p s)).1 = (GetStreamState s).1 ∧
      ∀ t u, .streamEvent t u ∉ emitted s (RaiseStreamEvent type p s)) ∧
    ((RaiseStreamEvent type p s).raised =
      s.raised ++ if some p = s.activePlayer then [(type, p.url, s.activePlayer)] else []) ∧
    (∀ (g : Player → StreamState) (op : Op),
      streamEventsOf (emitted s (step g op s)) = (raisedIn s (step g op s)).map eventOf ∧
      (∀ x ∈ raisedIn s (step g op s), ∃ q, x.2.2 = some q ∧ x.2.1 = q.url) ∧
      (GetStreamState (step g op s)).1 =
        ((streamEventsOf (emitted s (step g op s))).getLast?.map Prod.fst).getD
          (GetStreamState s).1) ∧
    (∀ (st0 : StreamState) (calls : List ((Player → StreamState) × Op)),
      streamEventsOf (run calls (new st0)).log = (run calls (new st0)).raised.map eventOf ∧
      (∀ x ∈ (run calls (new st0)).raised, ∃ q, x.2.2 = some q ∧ x.2.1 = q.url) ∧
      (GetStreamState (run calls (new st0))).1 =
        ((streamEventsOf (run calls (new st0)).log).getLast?.map Prod.fst).getD st0) := by
  have hl := (RaiseStreamEvent_fields type p s).2.2.2.2.2.2.2.2
  refine ⟨?_, ?_, ?_, ?_, RaiseStreamEvent_raised type p s, fun g op => ⟨?_, ?_, ?_⟩,
    fun st0 calls => ?_⟩
  · rw [emitted_append _ _ _ hl]
    by_cases h : some p = s.activePlayer <;> simp [h]
  · simp
  · rw [emitted_append _ _ _ hl]
    by_cases h : some p = s.activePlayer <;> simp [h]
  · rw [emitted_append _ _ _ hl]
    intro h
    simp [h, GetStreamState]
  · exact step_raised_events g op s
  · exact step_raised_fromActive g op s
  · rw [step_raised_events, List.getLast?_map, Option.map_map]
    simpa [GetStreamState, eventOf, Function.comp_def] using step_raised_state g op s
  · obtain ⟨r, hr, he, hf, ha⟩ := raises_run calls (new st0)
    have hr0 : (new st0).raised = [] := rfl
    have he0 : streamEventsOf (new st0).log = [] := rfl
    have ha0 : (new st0).activePlayerState = st0 := rfl
    rw [hr0, List.nil_append] at hr
    rw [he0, List.nil_append] at he
    rw [ha0] at ha
    refine ⟨by rw [he, hr], by rw [hr]; exact hf, ?_⟩
    rw [he, List.getLast?_map, Option.map_map]
    simpa [GetStreamState, eventOf, Function.comp_def] using ha

/-- C5 at the next session `b` of a playing transport: a `Finished` event of it raises nothing and
leaves the stream state `Playing`. -/
theorem C5_stream_events_from_active_witness :
    (GetStreamState (RaiseStreamEvent .Finished ⟨1, "b"⟩ playingWithNext)).1 =
      (GetStreamState playingWithNext).1 ∧
    ∀ t u, .streamEvent t u ∉ emitted playingWithNext
      (RaiseStreamEvent .Finished ⟨1, "b"⟩ playingWithNext) :=
  (C5_stream_events_from_active .Finished ⟨1, "b"⟩ playingWithNext).2.2.2.1 (by decide)

/-- C6: `SetPlaybackState(st)` raises `PlaybackEvent(st)` exactly when the prior state differs
from `st`, every call raises a playback event exactly when it changes `playbackState` (the event
carrying the new state), and so along every run from construction no two consecutive playback
events carry the same state and the first one is not `Stopped`. -/
theorem C6_no_duplicate_playback_events :
    (∀ (st : PlaybackState) (s : Transport),
      playbackEventsOf (emitted s (SetPlaybackState st s)) =
        if s.playbackState = st then [] else [st]) ∧
    (∀ (g : Player → StreamState) (op : Op) (s : Transport),
      playbackEventsOf (emitted s (step g op s)) =
        if s.playbackState = (step g op s).playbackState then []
        else [(step g op s).playbackState]) ∧
    (∀ (st0 : StreamState) (calls : List ((Player → StreamState) × Op)),
      List.Chain' (· ≠ ·) (playbackEventsOf (run calls (new st0)).log) ∧
      (playbackEventsOf (run calls (new st0)).log).head? ≠ some .Stopped) := by
  refine ⟨fun st s => ?_, step_playbackEvents, fun st0 calls => ?_⟩
  · have hl := (SetPlaybackState_fields st s).2.2.2.2.2.2.2.2
    rw [emitted_append _ _ _ hl]
    by_cases h : s.playbackState = st <;> simp [h]
  · have h := (announced_run calls _ (announced_new st0)).1
    rcases hpe : playbackEventsOf (run calls (new st0)).log with _ | ⟨x, l⟩
    · simp
    · rw [hpe] at h
      rw [List.chain'_cons] at h
      refine ⟨h.2, ?_⟩
      simp
      exact fun hx => h.1 hx.symm

/-- C7 fails as stated: `OnPlayerStarted` from a session that is not held makes a fresh transport
`Playing` with an empty active slot, and `OnPlayerDestroying` from the active session of a playing
transport empties the active slot and leaves it `Playing`. -/
theorem C7_counterexample :
    ((run [(idle, .OnPlayerStarted ⟨0, "a"⟩)] (new .Buffering)).playbackState = .Playing ∧
      (run [(idle, .OnPlayerStarted ⟨0, "a"⟩)] (new .Buffering)).activePlayer = none) ∧
    ((run [(idle, .Start "a" unity .Immediate true), (idle, .OnPlayerStarted ⟨0, "a"⟩),
        (idle, .OnPlayerDestroying ⟨0, "a"⟩)] (new .Buffering)).playbackState = .Playing ∧
      (run [(idle, .Start "a" unity .Immediate true), (idle, .OnPlayerStarted ⟨0, "a"⟩),
        (idle, .OnPlayerDestroying ⟨0, "a"⟩)] (new .Buffering)).activePlayer = none) := by
  decide

/-- C7 as amended: along every run from construction in which no `OnPlayerStarted` arrives
while the active slot is empty and no `OnPlayerDestroying` arrives from the session in the active
slot while `playbackState` is not `Stopped`, a `playbackState` other than `Stopped` implies that
the active slot is occupied. -/
theorem C7_loaded_when_not_stopped (st0 : StreamState)
    (calls : List ((Player → StreamState) × Op))
    (hadm : AdmittedRun calls (new st0) = true)
    (hps : (run calls (new st0)).playbackState ≠ .Stopped) :
    (run calls (new st0)).activePlayer.isSome = true :=
  loaded_run calls (new st0) hadm (by simp [new]) hps

/-- C7 as amended, at a run through the natural end of a track: `a` is started, starts, finishes
and announces its destruction, then `b` is started and a late `OnPlayerStarted` of `a` arrives. -/
theorem C7_loaded_when_not_stopped_witness :
    (run [(idle, .Start "a" unity .Immediate true), (idle, .OnPlayerStarted ⟨0, "a"⟩),
        (idle, .OnPlayerFinished ⟨0, "a"⟩), (idle, .OnPlayerDestroying ⟨0, "a"⟩),
        (idle, .Start "b" unity .Immediate true), (idle, .OnPlayerStarted ⟨0, "a"⟩)]
      (new .Buffering)).playbackState = .Playing ∧
    (run [(idle, .Start "a" unity .Immediate true), (idle, .OnPlayerStarted ⟨0, "a"⟩),
        (idle, .OnPlayerFinished ⟨0, "a"⟩), (idle, .OnPlayerDestroying ⟨0, "a"⟩),
        (idle, .Start "b" unity .Immediate true), (idle, .OnPlayerStarted ⟨0, "a"⟩)]
      (new .Buffering)).activePlayer.isSome = true :=
  ⟨by decide,
    C7_loaded_when_not_stopped .Buffering
      [(idle, .Start "a" unity .Immediate true), (idle, .OnPlayerStarted ⟨0, "a"⟩),
        (idle, .OnPlayerFinished ⟨0, "a"⟩), (idle, .OnPlayerDestroying ⟨0, "a"⟩),
        (idle, .Start "b" unity .Immediate true), (idle, .OnPlayerStarted ⟨0, "a"⟩)]
      (by decide) (by decide)⟩

/-- C8: when `Player::Create` yields a session (one that is not already in the next slot),
after `Start(uri, gain, mode)` the active slot holds it, the next slot is empty, `nextCanStart`
is false, the sessions held before are detached and destroyed, `playbackState` is unchanged and
no playback event is raised, the output got `Resume`, and `Play` went to the new session exactly
when the mode is `Immediate`. -/
theorem C8_Start (g : Player → StreamState) (uri : String) (gain : Gain) (mode : StartMode)
    (s : Transport) (fresh : s.nextPlayer ≠ some ⟨s.nextId, uri⟩) :
    (Player.Create uri true s).1 = some ⟨s.nextId, uri⟩ ∧
    (Start g uri gain mode true s).activePlayer = some ⟨s.nextId, uri⟩ ∧
    (Start g uri gain mode true s).nextPlayer = none ∧
    (Start g uri gain mode true s).nextCanStart = false ∧
    (∀ p, s.activePlayer = some p ∨ s.nextPlayer = some p →
      TornDown p (emitted s (Start g uri gain mode true s))) ∧
    (Start g uri gain mode true s).playbackState = s.playbackState ∧
    (∀ st, .playbackEvent st ∉ emitted s (Start g uri gain mode true s)) ∧
    .outputResume ∈ emitted s (Start g uri gain mode true s) ∧
    (.play ⟨s.nextId, uri⟩ ∈ emitted s (Start g uri gain mode true s) ↔ mode = .Immediate) := by
  have hl := (Start_fields g uri gain mode s).2.2.2.2.2.2.2.2
  rw [emitted_append _ _ _ hl]
  have hne : ¬ (some (⟨s.nextId, uri⟩ : Player) = s.nextPlayer) := fun h => fresh h.symm
  refine ⟨rfl, by simp, by simp, by simp, ?_, by simp, ?_, ?_, ?_⟩
  · rintro p (hp | hp) <;> rw [hp]
    · exact (tornDown_startTrace_active _ _ _ _ _).cons _
    · rw [hp] at hne
      exact (tornDown_startTrace_next _ _ _ _ _ hne).cons _
  · simp
  · simp
  · simp

/-- C8 at a transport playing `a` with `b` prepared, starting `c`. -/
theorem C8_Start_witness :
    (Start idle "c" unity .Wait true playingWithNext).activePlayer =
      some ⟨playingWithNext.nextId, "c"⟩ ∧
    TornDown ⟨1, "b"⟩ (emitted playingWithNext (Start idle "c" unity .Wait true playingWithNext)) :=
  ⟨(C8_Start idle "c" unity .Wait playingWithNext (by decide)).2.1,
    (C8_Start idle "c" unity .Wait playingWithNext (by decide)).2.2.2.2.1 ⟨1, "b"⟩
      (Or.inr (by decide))⟩

/-- C9: after `Stop()` both slots are empty, every session that was held is detached and
destroyed, the output got `Stop`, and `GetPlaybackState()` returns `Stopped`. -/
theorem C9_Stop (s : Transport) :
    (Stop s).activePlayer = none ∧ (Stop s).nextPlayer = none ∧
    (∀ p, s.activePlayer = some p ∨ s.nextPlayer = some p → TornDown p (emitted s (Stop s))) ∧
    .outputStop ∈ emitted s (Stop s) ∧
    (GetPlaybackState (Stop s)).1 = .Stopped := by
  have hl := (Stop_fields s).2.2.2.2.2.2.2.2
  rw [emitted_append _ _ _ hl]
  refine ⟨by simp, by simp, ?_, by simp, by simp [GetPlaybackState]⟩
  rintro p (hp | hp) <;> rw [hp]
  · exact ((tornDown_resetTrace p _).append_right _).append_left _ |>.cons _
  · exact ((tornDown_resetTrace p _).append_right _).cons _

/-- C9 at a transport playing `a` with `b` prepared. -/
theorem C9_Stop_witness :
    TornDown ⟨0, "a"⟩ (emitted playingWithNext (Stop playingWithNext)) ∧
    TornDown ⟨1, "b"⟩ (emitted playingWithNext (Stop playingWithNext)) :=
  ⟨(C9_Stop playingWithNext).2.2.1 ⟨0, "a"⟩ (Or.inl (by decide)),
    (C9_Stop playingWithNext).2.2.1 ⟨1, "b"⟩ (Or.inr (by decide))⟩

/-- C10: `PrepareNextTrack(uri)` with a non-empty uri for which a session is created: with
`nextCanStart` set, the new session ends up active, the next slot empty, `nextCanStart` false and
`Play` issued to it; with `nextCanStart` clear, the new session ends up in the next slot and the
active slot is unchanged; either way a session held in the next slot before is detached and
destroyed. -/
theorem C10_PrepareNextTrack (g : Player → StreamState) (uri : String) (gain : Gain)
    (s : Transport) (hu : uri.length ≠ 0) :
    (s.nextCanStart = true →
      (PrepareNextTrack g uri gain true s).activePlayer = some ⟨s.nextId, uri⟩ ∧
      (PrepareNextTrack g uri gain true s).nextPlayer = none ∧
      (PrepareNextTrack g uri gain true s).nextCanStart = false ∧
      .play ⟨s.nextId, uri⟩ ∈ emitted s (PrepareNextTrack g uri gain true s)) ∧
    (s.nextCanStart = false →
      (PrepareNextTrack g uri gain true s).nextPlayer = some ⟨s.nextId, uri⟩ ∧
      (PrepareNextTrack g uri gain true s).activePlayer = s.activePlayer) ∧
    (∀ p, s.nextPlayer = some p → TornDown p (emitted s (PrepareNextTrack g uri gain true s))) := by
  have hl := (PrepareNextTrack_fields g uri gain true s).2.2.2.2.2.2.2.2
  rw [emitted_append _ _ _ hl]
  refine ⟨fun h => ?_, fun h => ?_, fun p hp => ?_⟩
  · simp [hu, h, defaultStartMode]
  · simp [hu, h]
  · rw [hp]
    exact ((tornDown_resetTrace p _).append_right _).cons _

/-- C10 at a transport playing `a` with `b` prepared, preparing `c`. -/
theorem C10_PrepareNextTrack_witness :
    ((PrepareNextTrack idle "c" unity true playingWithNext).nextPlayer =
        some ⟨playingWithNext.nextId, "c"⟩ ∧
      (PrepareNextTrack idle "c" unity true playingWithNext).activePlayer =
        playingWithNext.activePlayer) ∧
    TornDown ⟨1, "b"⟩
      (emitted playingWithNext (PrepareNextTrack idle "c" unity true playingWithNext)) :=
  ⟨(C10_PrepareNextTrack idle "c" unity playingWithNext (by decide)).2.1 (by decide),
    (C10_PrepareNextTrack idle "c" unity playingWithNext (by decide)).2.2 ⟨1, "b"⟩ (by decide)⟩

/-- C11: `OnPlayerAlmostEnded(p)` with a session `n` queued in the next slot ends with `n`
active, the next slot empty and the session that was active detached and destroyed; with an empty
next slot it leaves both slots as they were and ends with `nextCanStart` true. -/
theorem C11_OnPlayerAlmostEnded (g : Player → StreamState) (p : Player) (s : Transport) :
    (∀ n, s.nextPlayer = some n →
      (OnPlayerAlmostEnded g p s).activePlayer = some n ∧
      (OnPlayerAlmostEnded g p s).nextPlayer = none ∧
      ∀ a, s.activePlayer = some a → TornDown a (emitted s (OnPlayerAlmostEnded g p s))) ∧
    (s.nextPlayer = none →
      (OnPlayerAlmostEnded g p s).activePlayer = s.activePlayer ∧
      (OnPlayerAlmostEnded g p s).nextPlayer = s.nextPlayer ∧
      (OnPlayerAlmostEnded g p s).nextCanStart = true) := by
  have hl := (OnPlayerAlmostEnded_fields g p s).2.2.2.2.2.2.2.2
  rw [emitted_append _ _ _ hl]
  refine ⟨fun n hn => ⟨by simp [hn], by simp, fun a ha => ?_⟩, fun hn => by simp [hn]⟩
  rw [hn, ha]
  exact ((((tornDown_promoteTrace g n a).append_right _).cons _).cons _).cons _

/-- C11 at a transport playing `a` with `b` prepared. -/
theorem C11_OnPlayerAlmostEnded_witness :
    ((OnPlayerAlmostEnded idle ⟨0, "a"⟩ playingWithNext).activePlayer = some ⟨1, "b"⟩ ∧
      (OnPlayerAlmostEnded idle ⟨0, "a"⟩ playingWithNext).nextPlayer = none) ∧
    TornDown ⟨0, "a"⟩
      (emitted playingWithNext (OnPlayerAlmostEnded idle ⟨0, "a"⟩ playingWithNext)) :=
  ⟨⟨((C11_OnPlayerAlmostEnded idle ⟨0, "a"⟩ playingWithNext).1 ⟨1, "b"⟩ (by decide)).1,
      ((C11_OnPlayerAlmostEnded idle ⟨0, "a"⟩ playingWithNext).1 ⟨1, "b"⟩ (by decide)).2.1⟩,
    ((C11_OnPlayerAlmostEnded idle ⟨0, "a"⟩ playingWithNext).1 ⟨1, "b"⟩ (by decide)).2.2
      ⟨0, "a"⟩ (by decide)⟩

/-- C12: `OnPlayerFinished(p)` from the active session with a next session queued promotes it,
leaves `playbackState` alone, raises no playback event and issues no output `Stop`; from the
active session with an empty next slot it sets `playbackState` to `Stopped`, keeps the slot and
issues no output `Stop`; from any other session it changes nothing and raises nothing. -/
theorem C12_OnPlayerFinished (g : Player → StreamState) (p : Player) (s : Transport) :
    (∀ n, s.activePlayer = some p → s.nextPlayer = some n →
      (OnPlayerFinished g p s).activePlayer = some n ∧
      (OnPlayerFinished g p s).playbackState = s.playbackState ∧
      (∀ st, .playbackEvent st ∉ emitted s (OnPlayerFinished g p s)) ∧
      .outputStop ∉ emitted s (OnPlayerFinished g p s)) ∧
    (s.activePlayer = some p → s.nextPlayer = none →
      (OnPlayerFinished g p s).playbackState = .Stopped ∧
      (OnPlayerFinished g p s).activePlayer = s.activePlayer ∧
      .outputStop ∉ emitted s (OnPlayerFinished g p s)) ∧
    (s.activePlayer ≠ some p →
      SameVisibleState s (OnPlayerFinished g p s) ∧
      (OnPlayerFinished g p s).volume = s.volume ∧
      (OnPlayerFinished g p s).muted = s.muted ∧
      Silent s (OnPlayerFinished g p s)) := by
  refine ⟨fun n ha hn => ?_, fun ha hn => ?_, fun ha => ?_⟩
  · simp [emitted, ha, hn]
  · simp [emitted, ha, hn, promoteTrace]
  · have ha2 : ¬ (some p = s.activePlayer) := fun h => ha h.symm
    simp [SameVisibleState, Silent, emitted, ha2]

/-- C12 at a transport playing `a` with `b` prepared, and at one playing `a` alone. -/
theorem C12_OnPlayerFinished_witness :
    ((OnPlayerFinished idle ⟨0, "a"⟩ playingWithNext).activePlayer = some ⟨1, "b"⟩ ∧
      (OnPlayerFinished idle ⟨0, "a"⟩ playingWithNext).playbackState =
        playingWithNext.playbackState) ∧
    (OnPlayerFinished idle ⟨0, "a"⟩ playing).playbackState = .Stopped :=
  ⟨⟨((C12_OnPlayerFinished idle ⟨0, "a"⟩ playingWithNext).1 ⟨1, "b"⟩
        (by decide) (by decide)).1,
      ((C12_OnPlayerFinished idle ⟨0, "a"⟩ playingWithNext).1 ⟨1, "b"⟩
        (by decide) (by decide)).2.1⟩,
    ((C12_OnPlayerFinished idle ⟨0, "a"⟩ playing).2.1 (by decide) (by decide)).1⟩

/-- C13, what the code does: after `Start(uri)` and `OnPlayerOpenFailed` from the session that
`Start` installed, both slots are empty and `GetPlaybackState()` is `Stopped`, but
`GetStreamState()` is `Destroyed` and the only stream event of the callback is `Destroyed`: the
active player is reset before `RaiseStreamEvent(OpenFailed, player)` runs, so that call finds the
sender no longer active and raises nothing.  The last part is the run `Start("bad-uri")`,
`OnPlayerOpenFailed` on a fresh transport. -/
theorem C13_open_failure_not_reported :
    (∀ (g : Player → StreamState) (uri : String) (gain : Gain) (mode : StartMode)
        (s : Transport),
      (OnPlayerOpenFailed ⟨s.nextId, uri⟩ (Start g uri gain mode true s)).activePlayer = none ∧
      (OnPlayerOpenFailed ⟨s.nextId, uri⟩ (Start g uri gain mode true s)).nextPlayer = none ∧
      (GetPlaybackState
        (OnPlayerOpenFailed ⟨s.nextId, uri⟩ (Start g uri gain mode true s))).1 = .Stopped ∧
      (GetStreamState
        (OnPlayerOpenFailed ⟨s.nextId, uri⟩ (Start g uri gain mode true s))).1 = .Destroyed ∧
      streamEventsOf (emitted (Start g uri gain mode true s)
        (OnPlayerOpenFailed ⟨s.nextId, uri⟩ (Start g uri gain mode true s))) =
          [(.Destroyed, uri)]) ∧
    (opening.activePlayer = some ⟨0, "bad-uri"⟩ ∧
      (GetStreamState (OnPlayerOpenFailed ⟨0, "bad-uri"⟩ opening)).1 = .Destroyed ∧
      streamEventsOf (OnPlayerOpenFailed ⟨0, "bad-uri"⟩ opening).log =
        [(.Buffering, "bad-uri"), (.Destroyed, "bad-uri")]) := by
  refine ⟨fun g uri gain mode s => ?_, by decide⟩
  simp [emitted, GetPlaybackState, GetStreamState]

/-- C14: in a state where the next session is not also the active one, `PrepareNextTrack("")`
empties the next slot, detaches and destroys the session it held, leaves the active session,
`playbackState`, `streamState` and `nextCanStart` as they were, raises no signal and issues no
`Play`, whatever `nextCanStart` is. -/
theorem C14_cancel_next (g : Player → StreamState) (gain : Gain) (created : Bool)
    (s : Transport) (hown : ∀ p, s.nextPlayer = some p → s.activePlayer ≠ some p) :
    (PrepareNextTrack g "" gain created s).nextPlayer = none ∧
    (∀ p, s.nextPlayer = some p →
      TornDown p (emitted s (PrepareNextTrack g "" gain created s))) ∧
    (PrepareNextTrack g "" gain created s).activePlayer = s.activePlayer ∧
    (PrepareNextTrack g "" gain created s).playbackState = s.playbackState ∧
    (PrepareNextTrack g "" gain created s).activePlayerState = s.activePlayerState ∧
    (PrepareNextTrack g "" gain created s).nextCanStart = s.nextCanStart ∧
    (∀ e ∈ emitted s (PrepareNextTrack g "" gain created s), e.isSignal = false) ∧
    (∀ q, .play q ∉ emitted s (PrepareNextTrack g "" gain created s)) := by
  have hl := (PrepareNextTrack_fields g "" gain created s).2.2.2.2.2.2.2.2
  rw [emitted_append _ _ _ hl]
  have hne : ¬ (s.nextPlayer.isSome = true ∧ s.nextPlayer = s.activePlayer) := by
    rintro ⟨h1, h2⟩
    rcases hn : s.nextPlayer with _ | n
    · simp [hn] at h1
    · exact hown n hn (by rw [← h2, hn])
  have hlen : ("" : String).length = 0 := rfl
  refine ⟨by simp [hlen], fun p hp => ?_, by simp [hlen], by simp, by simp [hlen, hne],
    by simp [hlen], ?_, ?_⟩
  · rw [hp]
    exact ((tornDown_resetTrace p _).append_right _).cons _
  · intro e he
    simp [hlen] at he
    rcases he with rfl | ⟨n, hn, h⟩ | rfl
    · rfl
    · rcases h with rfl | rfl | rfl | rfl | ⟨h1, -⟩
      · rfl
      · rfl
      · rfl
      · rfl
      · exact absurd h1.symm (hown n hn)
    · rfl
  · intro q
    simp [hlen]

/-- C14 at a transport playing `a` with `b` prepared. -/
theorem C14_cancel_next_witness :
    (PrepareNextTrack idle "" unity true playingWithNext).nextPlayer = none ∧
    TornDown ⟨1, "b"⟩
      (emitted playingWithNext (PrepareNextTrack idle "" unity true playingWithNext)) ∧
    (PrepareNextTrack idle "" unity true playingWithNext).activePlayerState =
      playingWithNext.activePlayerState :=
  ⟨(C14_cancel_next idle unity true playingWithNext
      (fun p hp ha => absurd (hp.trans ha.symm) (by decide))).1,
    (C14_cancel_next idle unity true playingWithNext
      (fun p hp ha => absurd (hp.trans ha.symm) (by decide))).2.1 ⟨1, "b"⟩ (by decide),
    (C14_cancel_next idle unity true playingWithNext
      (fun p hp ha => absurd (hp.trans ha.symm) (by decide))).2.2.2.2.1⟩

/-- C15 fails as stated: `Stop()` on a transport playing `a` with `b` prepared raises one
`Destroyed` stream event, for `a`, and none carrying the url of `b`. -/
theorem C15_counterexample :
    playingWithNext.activePlayer = some ⟨0, "a"⟩ ∧
    playingWithNext.nextPlayer = some ⟨1, "b"⟩ ∧
    (emitted playingWithNext (Stop playingWithNext)).count (.streamEvent .Destroyed "b") = 0 ∧
    streamEventsOf (emitted playingWithNext (Stop playingWithNext)) = [(.Destroyed, "a")] := by
  decide

/-- C15 as amended: `Stop()` with an active session and a different next session held raises
exactly one stream event, `Destroyed` with the url of the active session. -/
theorem C15_Stop_destroyed_events (s : Transport) (a n : Player)
    (ha : s.activePlayer = some a) (hn : s.nextPlayer = some n) (hne : n ≠ a) :
    streamEventsOf (emitted s (Stop s)) = [(.Destroyed, a.url)] := by
  simp [emitted, ha, hn, hne]

/-- C15 as amended, at a transport playing `a` with `b` prepared. -/
theorem C15_Stop_destroyed_events_witness :
    streamEventsOf (emitted playingWithNext (Stop playingWithNext)) =
      [(.Destroyed, (⟨0, "a"⟩ : Player).url)] :=
  C15_Stop_destroyed_events playingWithNext ⟨0, "a"⟩ ⟨1, "b"⟩ (by decide) (by decide) (by decide)

/-- C16 fails as stated: `Stop()` on a fresh transport, and `Stop()` on a transport that is
already stopped, raise no playback event. -/
theorem C16_counterexample :
    playbackEventsOf (emitted (new .Buffering) (Stop (new .Buffering))) = [] ∧
    playbackEventsOf (emitted afterStop (Stop afterStop)) = [] := by
  decide

/-- C16 as amended: `Stop()` raises exactly one `PlaybackEvent(Stopped)` when `playbackState`
was not `Stopped`, and no playback event when it was; `playbackState` is `Stopped` afterwards in
both cases. -/
theorem C16_Stop_playback_event (s : Transport) :
    playbackEventsOf (emitted s (Stop s)) =
      (if s.playbackState = .Stopped then [] else [.Stopped]) ∧
    (Stop s).playbackState = .Stopped ∧
    (GetPlaybackState (Stop s)).1 = .Stopped := by
  simp [emitted, GetPlaybackState]

/-- C17, what the code does: `OnPlayerAlmostEnded` from the active session raises exactly one
stream event, `AlmostDone` with its url, when no next session is queued; when another session is
queued, the promotion runs first and resets the sender, so `RaiseStreamEvent(AlmostDone, player)`
finds it no longer active: the stream events are `Destroyed` for the sender and the stream state
of the promoted session, and no `AlmostDone`.  `OnPlayerFinished` in the same states raises its
`Finished` first and promotes afterwards.  The last part is a transport playing `a` with `b`
prepared. -/
theorem C17_almost_done_dropped :
    (∀ (g : Player → StreamState) (p n : Player) (s : Transport),
      s.activePlayer = some p → s.nextPlayer = some n → n ≠ p →
      streamEventsOf (emitted s (OnPlayerAlmostEnded g p s)) =
        [(.Destroyed, p.url), (g n, n.url)]) ∧
    (∀ (g : Player → StreamState) (p : Player) (s : Transport),
      s.activePlayer = some p → s.nextPlayer = none →
      streamEventsOf (emitted s (OnPlayerAlmostEnded g p s)) = [(.AlmostDone, p.url)]) ∧
    (∀ (g : Player → StreamState) (p n : Player) (s : Transport),
      s.activePlayer = some p → s.nextPlayer = some n → n ≠ p →
      streamEventsOf (emitted s (OnPlayerFinished g p s)) =
        [(.Finished, p.url), (.Destroyed, p.url), (g n, n.url)]) ∧
    (playingWithNext.activePlayer = some ⟨0, "a"⟩ ∧
      playingWithNext.nextPlayer = some ⟨1, "b"⟩ ∧
      streamEventsOf
          (emitted playingWithNext (OnPlayerAlmostEnded idle ⟨0, "a"⟩ playingWithNext)) =
        [(.Destroyed, "a"), (.Buffering, "b")]) := by
  refine ⟨fun g p n s ha hn hne => ?_, fun g p s ha hn => ?_, fun g p n s ha hn hne => ?_,
    by decide⟩
  · have hne2 : ¬ p = n := fun h => hne h.symm
    simp [emitted, ha, hn, hne2]
  · simp [emitted, ha, hn]
  · have hne2 : ¬ p = n := fun h => hne h.symm
    simp [emitted, ha, hn, hne2]

/-- C18: `OnPlayerBuffered(p)` from the active session raises one stream event, `Buffered` with
its url, and sets `streamState` to `Buffered` and `playbackState` to `Prepared`; from any other
session it does nothing at all; so after `Start(uri)` and `OnPlayerBuffered` from the started
session `GetPlaybackState()` is `Prepared`, and after `OnPlayerStarted` from it, `Playing`. -/
theorem C18_OnPlayerBuffered (g : Player → StreamState) (uri : String) (gain : Gain)
    (mode : StartMode) (p : Player) (s : Transport) :
    (s.activePlayer = some p →
      streamEventsOf (emitted s (OnPlayerBuffered p s)) = [(.Buffered, p.url)] ∧
      (OnPlayerBuffered p s).activePlayerState = .Buffered ∧
      (OnPlayerBuffered p s).playbackState = .Prepared) ∧
    (s.activePlayer ≠ some p → OnPlayerBuffered p s = s) ∧
    ((GetPlaybackState
        (OnPlayerBuffered ⟨s.nextId, uri⟩ (Start g uri gain mode true s))).1 = .Prepared ∧
      (GetPlaybackState
        (OnPlayerStarted ⟨s.nextId, uri⟩
          (OnPlayerBuffered ⟨s.nextId, uri⟩ (Start g uri gain mode true s)))).1 = .Playing) := by
  refine ⟨fun ha => ?_, fun ha => ?_, ?_⟩
  · simp [emitted, ha]
  · have ha2 : ¬ (some p = s.activePlayer) := fun h => ha h.symm
    simp [OnPlayerBuffered, ha2]
  · simp [GetPlaybackState]

/-- C18 at a transport that was just asked to start `bad-uri`. -/
theorem C18_OnPlayerBuffered_witness :
    (OnPlayerBuffered ⟨0, "bad-uri"⟩ opening).playbackState = .Prepared ∧
    OnPlayerBuffered ⟨1, "b"⟩ opening = opening :=
  ⟨((C18_OnPlayerBuffered idle "c" unity .Immediate ⟨0, "bad-uri"⟩ opening).1
      (by decide)).2.2,
    (C18_OnPlayerBuffered idle "c" unity .Immediate ⟨1, "b"⟩ opening).2.1 (by decide)⟩

/-- C19 fails as stated: `OnPlayerDestroying` from the active session of a playing transport
changes `streamState` and raises a `Destroyed` stream event. -/
theorem C19_counterexample :
    playing.activePlayer = some ⟨0, "a"⟩ ∧
    (OnPlayerDestroying ⟨0, "a"⟩ playing).activePlayerState ≠ playing.activePlayerState ∧
    .streamEvent .Destroyed "a" ∈ emitted playing (OnPlayerDestroying ⟨0, "a"⟩ playing) := by
  decide

/-- C19 as amended: `OnPlayerDestroying(p)` from the active session empties the active slot,
detaches and destroys the session, sets `streamState` to `Destroyed` and raises one stream event,
`Destroyed` with its url, leaving the next slot, `playbackState` and `nextCanStart` as they were
and raising no playback event; from any other session it changes nothing. -/
theorem C19_OnPlayerDestroying (p : Player) (s : Transport) :
    (s.activePlayer = some p →
      (OnPlayerDestroying p s).activePlayer = none ∧
      (OnPlayerDestroying p s).nextPlayer = s.nextPlayer ∧
      (OnPlayerDestroying p s).playbackState = s.playbackState ∧
      (OnPlayerDestroying p s).nextCanStart = s.nextCanStart ∧
      (OnPlayerDestroying p s).activePlayerState = .Destroyed ∧
      emitted s (OnPlayerDestroying p s) =
        [.lock, .detach p, .destroy p, .lock, .unlock, .streamEvent .Destroyed p.url, .unlock]) ∧
    (s.activePlayer ≠ some p →
      SameVisibleState s (OnPlayerDestroying p s) ∧
      (OnPlayerDestroying p s).volume = s.volume ∧
      (OnPlayerDestroying p s).muted = s.muted ∧
      Silent s (OnPlayerDestroying p s)) := by
  refine ⟨fun ha => ?_, fun ha => ?_⟩
  · simp [emitted, ha, resetTrace]
  · have ha2 : ¬ (some p = s.activePlayer) := fun h => ha h.symm
    simp [SameVisibleState, Silent, emitted, ha2]

/-- C19 as amended, at a transport playing `a`. -/
theorem C19_OnPlayerDestroying_witness :
    (OnPlayerDestroying ⟨0, "a"⟩ playing).activePlayer = none ∧
    (OnPlayerDestroying ⟨0, "a"⟩ playing).activePlayerState = .Destroyed :=
  ⟨((C19_OnPlayerDestroying ⟨0, "a"⟩ playing).1 (by decide)).1,
    ((C19_OnPlayerDestroying ⟨0, "a"⟩ playing).1 (by decide)).2.2.2.2.1⟩

/-- C20: `Pause()` and `Resume()` return true exactly when an active session is held; then
`playbackState` becomes `Paused`, respectively `Play` is issued to the active session and
`playbackState` becomes `Playing`; when either returns false `playbackState` is unchanged and no
playback event is raised. -/
theorem C20_Pause_Resume (s : Transport) :
    ((Pause s).1 = true ↔ s.activePlayer.isSome = true) ∧
    ((Pause s).1 = true → (Pause s).2.playbackState = .Paused) ∧
    ((Resume s).1 = true ↔ s.activePlayer.isSome = true) ∧
    ((Resume s).1 = true →
      (∀ p, s.activePlayer = some p → .play p ∈ emitted s (Resume s).2) ∧
      (Resume s).2.playbackState = .Playing) ∧
    ((Pause s).1 = false →
      (Pause s).2.playbackState = s.playbackState ∧
      ∀ st, .playbackEvent st ∉ emitted s (Pause s).2) ∧
    ((Resume s).1 = false →
      (Resume s).2.playbackState = s.playbackState ∧
      ∀ st, .playbackEvent st ∉ emitted s (Resume s).2) := by
  rcases h : s.activePlayer with _ | a <;> simp [emitted, h]

/-- C20 at a transport playing `a`, and at a fresh one. -/
theorem C20_Pause_Resume_witness :
    (Pause playing).2.playbackState = .Paused ∧
    (Resume (new .Buffering)).2.playbackState = (new .Buffering).playbackState :=
  ⟨(C20_Pause_Resume playing).2.1 (by decide),
    ((C20_Pause_Resume (new .Buffering)).2.2.2.2.2 (by decide)).1⟩

/-! ## Time events and the device volume of a log -/

@[simp] theorem timeEventsOf_nil : timeEventsOf [] = [] := rfl

@[simp] theorem timeEventsOf_append (k l : List Effect) :
    timeEventsOf (k ++ l) = timeEventsOf k ++ timeEventsOf l := by
  simp [timeEventsOf]

@[simp] theorem timeEventsOf_cons (e : Effect) (l : List Effect) :
    timeEventsOf (e :: l) =
      (match e with
        | .timeChanged seconds => [seconds]
        | _ => []) ++ timeEventsOf l := by
  cases e <;> simp [timeEventsOf]

@[simp] theorem timeEventsOf_ite (c : Prop) [Decidable c] (k l : List Effect) :
    timeEventsOf (if c then k else l) = if c then timeEventsOf k else timeEventsOf l := by
  split <;> rfl

theorem deviceVolume_append (k l : List Effect) :
    deviceVolume (k ++ l) = l.foldl deviceStep (deviceVolume k) := by
  simp [deviceVolume, List.foldl_append]

theorem volume_step (g : Player → StreamState) (op : Op) (s : Transport)
    (h : 0 ≤ s.volume ∧ s.volume ≤ 1) :
    0 ≤ (step g op s).volume ∧ (step g op s).volume ≤ 1 := by
  rcases op with ⟨uri, gain, mode, _ | _⟩ | ⟨uri, gain, _ | _⟩ | _ | _ | _ | sec | vol | mu |
      _ | p | p | p | p | p | p <;>
    simp [step, h]

theorem volume_run (calls : List ((Player → StreamState) × Op)) (s : Transport)
    (h : 0 ≤ s.volume ∧ s.volume ≤ 1) :
    0 ≤ (run calls s).volume ∧ (run calls s).volume ≤ 1 := by
  induction calls generalizing s with
  | nil => exact h
  | cons c cs ih => exact ih _ (volume_step c.1 c.2 s h)

/-- C21: `SetPosition(seconds)` with an active session ends with `playbackState` `Playing`, has
issued `SetPosition(seconds)` to that session and has raised exactly one time event,
`TimeChanged(seconds)`; without an active session it changes no member variable and does nothing
but take and release the lock. -/
theorem C21_SetPosition (seconds : ℚ) (s : Transport) :
    (∀ p, s.activePlayer = some p →
      (SetPosition seconds s).playbackState = .Playing ∧
      .setPosition p seconds ∈ emitted s (SetPosition seconds s) ∧
      timeEventsOf (emitted s (SetPosition seconds s)) = [seconds]) ∧
    (s.activePlayer = none →
      SameState s (SetPosition seconds s) ∧ Silent s (SetPosition seconds s)) := by
  refine ⟨fun p hp => ?_, fun hp => ?_⟩
  · simp [emitted, hp]
  · simp [SameState, Silent, emitted, hp]

/-- C21 at a transport playing `a`, and at a fresh one. -/
theorem C21_SetPosition_witness :
    ((SetPosition 5 playing).playbackState = .Playing ∧
      .setPosition ⟨0, "a"⟩ 5 ∈ emitted playing (SetPosition 5 playing) ∧
      timeEventsOf (emitted playing (SetPosition 5 playing)) = [5]) ∧
    (SameState (new .Buffering) (SetPosition 5 (new .Buffering)) ∧
      Silent (new .Buffering) (SetPosition 5 (new .Buffering))) :=
  ⟨(C21_SetPosition 5 playing).1 ⟨0, "a"⟩ (by decide),
    (C21_SetPosition 5 (new .Buffering)).2 (by decide)⟩

/-- C22 fails as stated: on a muted transport at volume 1, `SetVolume(0)` raises `VolumeChanged`
twice. -/
theorem C22_counterexample :
    mutedFresh.volume = 1 ∧
    (emitted mutedFresh (SetVolume 0 mutedFresh)).count .volumeChanged = 2 := by
  decide

/-- C22 as amended: `SetVolume(v)` with `v` in `[0, 1]` raises no `VolumeChanged` when `v` is the
current volume, one when `v` differs and the transport is not muted, and two when `v` differs and
the transport is muted. -/
theorem C22_SetVolume_events (v : ℚ) (s : Transport) (h0 : 0 ≤ v) (h1 : v ≤ 1) :
    (emitted s (SetVolume v s)).count .volumeChanged =
      if s.volume = v then 0 else if s.muted = true then 2 else 1 := by
  have hclamp : max 0 (min 1 v) = v := by
    rw [min_eq_right h1, max_eq_right h0]
  by_cases hv : s.volume = v <;> cases hm : s.muted <;>
    simp [emitted, hclamp, hv, hm, List.count_cons]

/-- C22 as amended, at a muted transport and at a fresh one, both at volume 1, for `v = 0`. -/
theorem C22_SetVolume_events_witness :
    (emitted mutedFresh (SetVolume 0 mutedFresh)).count .volumeChanged =
        (if mutedFresh.volume = 0 then 0 else if mutedFresh.muted = true then 2 else 1) ∧
    (emitted (new .Buffering) (SetVolume 0 (new .Buffering))).count .volumeChanged =
        (if (new .Buffering).volume = 0 then 0
          else if (new .Buffering).muted = true then 2 else 1) :=
  ⟨C22_SetVolume_events 0 mutedFresh (by decide) (by decide),
    C22_SetVolume_events 0 (new .Buffering) (by decide) (by decide)⟩

/-- C23 fails as stated: on a fresh transport (volume 1), `SetMuted(true)` followed by
`SetVolume(1)` leaves `IsMuted()` true. -/
theorem C23_counterexample :
    IsMuted (SetVolume 1 (SetMuted true (new .Buffering))) = true := by
  decide

/-- C23 as amended: for `v` in `[0, 1]` different from the current volume, after `SetMuted(true)`
and `SetVolume(v)` the transport is not muted and the volume last applied to the output is `v`;
for `v` equal to the current volume `IsMuted()` stays true. -/
theorem C23_mute_then_volume (v : ℚ) (s : Transport) (h0 : 0 ≤ v) (h1 : v ≤ 1) :
    (v ≠ s.volume →
      IsMuted (SetVolume v (SetMuted true s)) = false ∧
      deviceVolume (SetVolume v (SetMuted true s)).log = some v) ∧
    (v = s.volume → IsMuted (SetVolume v (SetMuted true s)) = true) := by
  have hclamp : max 0 (min 1 v) = v := by
    rw [min_eq_right h1, max_eq_right h0]
  refine ⟨fun hv => ?_, fun hv => ?_⟩
  · have hv2 : ¬ s.volume = v := fun h => hv h.symm
    simp [IsMuted, hclamp, hv2, deviceVolume_append, deviceStep]
  · subst hv
    simp [IsMuted, hclamp]

/-- C23 as amended, at a fresh transport for `v = 0.3`, the instance of the spec. -/
theorem C23_mute_then_volume_witness :
    IsMuted (SetVolume (3 / 10) (SetMuted true (new .Buffering))) = false ∧
    deviceVolume (SetVolume (3 / 10) (SetMuted true (new .Buffering))).log = some (3 / 10) :=
  (C23_mute_then_volume (3 / 10) (new .Buffering) (by norm_num) (by norm_num)).1
    (by norm_num [new, emit])

/-- C24, what the code does: on a muted transport at volume 1, whose output is at volume 0,
`ReloadOutput()` and `SetVolume(1)` both leave the transport muted and the output at volume 1:
they apply `volume` to the output without looking at `muted`. -/
theorem C24_device_volume_ignores_mute :
    (mutedFresh.muted = true ∧ mutedFresh.volume = 1 ∧ deviceVolume mutedFresh.log = some 0) ∧
    ((ReloadOutput mutedFresh).muted = true ∧
      deviceVolume (ReloadOutput mutedFresh).log = some 1) ∧
    ((SetVolume 1 mutedFresh).muted = true ∧
      deviceVolume (SetVolume 1 mutedFresh).log = some 1) := by
  decide

/-- C25: `Volume()` after `SetVolume(v)` is 0 for `v < 0`, 1 for `v > 1` and `v` otherwise; the
volume is 1 at construction and within `[0, 1]` after every run from construction. -/
theorem C25_SetVolume_clamps :
    (∀ (v : ℚ) (s : Transport),
      Volume (SetVolume v s) = if v < 0 then 0 else if 1 < v then 1 else v) ∧
    (∀ st0, Volume (new st0) = 1) ∧
    (∀ (st0 : StreamState) (calls : List ((Player → StreamState) × Op)),
      0 ≤ Volume (run calls (new st0)) ∧ Volume (run calls (new st0)) ≤ 1) := by
  refine ⟨fun v s => ?_, fun st0 => rfl, fun st0 calls => ?_⟩
  · simp only [Volume, (SetVolume_fields v s).1]
    split_ifs with h1 h2
    · rw [max_eq_left]
      exact le_trans (min_le_right _ _) h1.le
    · rw [min_eq_left h2.le, max_eq_right zero_le_one]
    · rw [min_eq_right (not_lt.1 h2), max_eq_right (not_lt.1 h1)]
  · exact volume_run calls (new st0) (by simp [new, emit])

/-- C26: without an active session `Position()` is 0, `GetDuration()` is -1 and `Uri()` is
empty; `GetPlaybackState`, `GetStreamState`, `Position` and `GetDuration` change no member variable
and do nothing but take and release the lock (`Uri` is a function of the state alone), the first
two returning the stored states. -/
theorem C26_pure_reads (getPosition getDuration : Player → ℚ) (s : Transport) :
    (s.activePlayer = none →
      (Position getPosition s).1 = 0 ∧ (GetDuration getDuration s).1 = -1 ∧ Uri s = "") ∧
    (SameState s (GetPlaybackState s).2 ∧ Silent s (GetPlaybackState s).2) ∧
    (SameState s (GetStreamState s).2 ∧ Silent s (GetStreamState s).2) ∧
    (SameState s (Position getPosition s).2 ∧ Silent s (Position getPosition s).2) ∧
    (SameState s (GetDuration getDuration s).2 ∧ Silent s (GetDuration getDuration s).2) ∧
    ((GetPlaybackState s).1 = s.playbackState ∧ (GetStreamState s).1 = s.activePlayerState) := by
  refine ⟨fun h => ?_, ?_, ?_, ?_, ?_, ?_⟩
  · simp [Position, GetDuration, Uri, h]
  · simp [SameState, Silent, emitted, GetPlaybackState]
  · simp [SameState, Silent, emitted, GetStreamState]
  · rcases h : s.activePlayer with _ | a <;>
      simp [SameState, Silent, emitted, Position, h]
  · rcases h : s.activePlayer with _ | a <;>
      simp [SameState, Silent, emitted, GetDuration, h]
  · simp [GetPlaybackState, GetStreamState]

/-- C26 at a fresh transport. -/
theorem C26_pure_reads_witness :
    (Position (fun _ => 7) (new .Buffering)).1 = 0 ∧
    (GetDuration (fun _ => 7) (new .Buffering)).1 = -1 ∧ Uri (new .Buffering) = "" :=
  (C26_pure_reads (fun _ => 7) (fun _ => 7) (new .Buffering)).1 (by decide)

/-- C27, what the code does: a master transport whose transport is at volume 0 comes out of
`SwitchTo` at the volume the new transport is constructed with (1 for the gapless transport),
because the previous volume is re-applied only `if (volume > 0)`; shown for a crossfade transport
switched to gapless and for a gapless transport switched to a crossfade transport constructed at
volume 1.  In general, switching from a crossfade transport at volume `x` to gapless gives the
clamped `x` when `x > 0` and 1 otherwise. -/
theorem C27_volume_zero_not_preserved :
    (silentCrossfade.Volume = some 0 ∧
      (silentCrossfade.SwitchTo .Buffering 1 .Gapless).bind MasterTransport.Volume = some 1) ∧
    (silentGapless.Volume = some 0 ∧
      (silentGapless.SwitchTo .Buffering 1 .Crossfade).bind MasterTransport.Volume = some 1) ∧
    (∀ (st : StreamState) (cv : ℚ) (c : CrossfadeTransport) (m : MasterTransport),
      m.type = .Crossfade → m.transport = some (.crossfade c) →
      (m.SwitchTo st cv .Gapless).bind MasterTransport.Volume =
        some (if c.volume > 0 then max 0 (min 1 c.volume) else 1)) := by
  refine ⟨by decide, by decide, fun st cv c m ht hc => ?_⟩
  simp [MasterTransport.SwitchTo, MasterTransport.Volume, ht, hc, ITransport.Volume,
    CrossfadeTransport.Volume]
  split_ifs <;> simp [ITransport.SetVolume, ITransport.Volume, Volume, new, emit]

/-- C28, what the code does: signals are raised while the emitting thread holds the state lock.
`Start("a")` on a fresh transport raises its stream event at lock depth 1; `SetPosition` on a
paused transport raises `PlaybackEvent(Playing)` at depth 1; `OnPlayerAlmostEnded` with a next
session queued raises both stream events of the promotion at depth 2; `Stop()` raises `Destroyed`
at depth 1. -/
theorem C28_signals_under_lock :
    signalDepths 0 (Start idle "a" unity .Immediate true (new .Buffering)).log =
      [(.streamEvent .Buffering "a", 1)] ∧
    signalDepths 0 (emitted paused (SetPosition 5 paused)) =
      [(.playbackEvent .Playing, 1), (.timeChanged 5, 0)] ∧
    signalDepths 0 (emitted playingWithNext (OnPlayerAlmostEnded idle ⟨0, "a"⟩ playingWithNext)) =
      [(.streamEvent .Destroyed "a", 2), (.streamEvent .Buffering "b", 2)] ∧
    signalDepths 0 (emitted playing (Stop playing)) =
      [(.streamEvent .Destroyed "a", 1), (.playbackEvent .Stopped, 0)] := by
  decide

/-- C29: `Stop()` leaves `nextCanStart` as it is; a call that clears a set `nextCanStart` has
run the promotion path (a session that was next, or was created in the call, is active and the
output was resumed); so after `OnPlayerAlmostEnded` with an empty next slot and `Stop()`,
`PrepareNextTrack(uri)` with a non-empty uri puts the new session in the active slot, resumes the
output and issues `Play` to it while `playbackState` is `Stopped`. -/
theorem C29_nextCanStart_survives_Stop (g : Player → StreamState) (p : Player) (uri : String)
    (gain : Gain) (s : Transport) :
    (Stop s).nextCanStart = s.nextCanStart ∧
    (∀ op, s.nextCanStart = true → (step g op s).nextCanStart = false →
      ∃ np, (step g op s).activePlayer = some np ∧
        (s.nextPlayer = some np ∨ .create np ∈ emitted s (step g op s)) ∧
        .outputResume ∈ emitted s (step g op s)) ∧
    (s.nextPlayer = none → uri.length ≠ 0 →
      (Stop (OnPlayerAlmostEnded g p s)).nextCanStart = true ∧
      (Stop (OnPlayerAlmostEnded g p s)).playbackState = .Stopped ∧
      (PrepareNextTrack g uri gain true (Stop (OnPlayerAlmostEnded g p s))).activePlayer =
        some ⟨s.nextId, uri⟩ ∧
      (PrepareNextTrack g uri gain true (Stop (OnPlayerAlmostEnded g p s))).nextPlayer = none ∧
      (PrepareNextTrack g uri gain true (Stop (OnPlayerAlmostEnded g p s))).playbackState =
        .Stopped ∧
      .outputResume ∈ emitted (Stop (OnPlayerAlmostEnded g p s))
        (PrepareNextTrack g uri gain true (Stop (OnPlayerAlmostEnded g p s))) ∧
      .play ⟨s.nextId, uri⟩ ∈ emitted (Stop (OnPlayerAlmostEnded g p s))
        (PrepareNextTrack g uri gain true (Stop (OnPlayerAlmostEnded g p s)))) := by
  refine ⟨by simp, fun op h1 h2 => ?_, fun hn hu => ?_⟩
  · rcases s with ⟨v, ps, a, n, ncs, m, aps, nid, lg, rz⟩
    simp only at h1
    subst h1
    rcases a with _ | a <;> rcases n with _ | n <;>
      rcases op with ⟨uri, gain, mode, _ | _⟩ | ⟨uri, gain, _ | _⟩ | _ | _ | _ | sec | vol |
        mu | _ | p | p | p | p | p | p <;>
      simp [step, emitted] at h2 ⊢
    all_goals (try simp [h2])
  · simp [emitted, hn, hu, defaultStartMode]

/-- C29 at a transport playing `a`. -/
theorem C29_nextCanStart_survives_Stop_witness :
    (PrepareNextTrack idle "b" unity true
        (Stop (OnPlayerAlmostEnded idle ⟨0, "a"⟩ playing))).activePlayer =
      some ⟨playing.nextId, "b"⟩ ∧
    (PrepareNextTrack idle "b" unity true
        (Stop (OnPlayerAlmostEnded idle ⟨0, "a"⟩ playing))).playbackState = .Stopped :=
  ⟨((C29_nextCanStart_survives_Stop idle ⟨0, "a"⟩ "b" unity playing).2.2
      (by decide) (by decide)).2.2.1,
    ((C29_nextCanStart_survives_Stop idle ⟨0, "a"⟩ "b" unity playing).2.2
      (by decide) (by decide)).2.2.2.2.1⟩

/-- C30: after `OnPlayerFinished` from the active session with an empty next slot the session is
still in the active slot, the callback issued neither `Detach` nor `Destroy` (and in a state
reached from construction the session was never destroyed), `playbackState` is `Stopped`, and a
following `Pause()` returns true and sets `playbackState` to `Paused`. -/
theorem C30_finished_session_stays (g : Player → StreamState) (p : Player) (s : Transport)
    (ha : s.activePlayer = some p) (hn : s.nextPlayer = none) :
    (OnPlayerFinished g p s).activePlayer = some p ∧
    (∀ e ∈ emitted s (OnPlayerFinished g p s), e.isTeardown = false) ∧
    (OnPlayerFinished g p s).playbackState = .Stopped ∧
    (Pause (OnPlayerFinished g p s)).1 = true ∧
    (Pause (OnPlayerFinished g p s)).2.playbackState = .Paused ∧
    (∀ (st0 : StreamState) (calls : List ((Player → StreamState) × Op)),
      s = run calls (new st0) → .destroy p ∉ (OnPlayerFinished g p s).log) := by
  refine ⟨by simp [ha, hn], ?_, by simp [ha, hn], by simp [ha, hn], by simp [ha, hn], ?_⟩
  · intro e he
    simp [emitted, ha, hn, promoteTrace] at he
    rcases he with rfl | rfl | rfl | rfl | rfl | h
    · rfl
    · rfl
    · rfl
    · rfl
    · rfl
    · rcases h with rfl | rfl | ⟨-, rfl⟩ <;> rfl
  · intro st0 calls hs hd
    have hacc : Accounted (step g (.OnPlayerFinished p) s) := by
      rw [hs]
      exact accounted_step _ _ _ (accounted_run calls _ (accounted_new st0))
    have hnd := held_nodup _ hacc
    have hmem : p ∈ destroyedOf (OnPlayerFinished g p s).log := (mem_destroyedOf p _).2 hd
    have hheld : p ∈ held (OnPlayerFinished g p s) := by simp [held, ha, hn]
    exact (List.nodup_append.1 hnd).2.2 hheld hmem

/-- C30 at a transport playing `a`. -/
theorem C30_finished_session_stays_witness :
    (OnPlayerFinished idle ⟨0, "a"⟩ playing).activePlayer = some ⟨0, "a"⟩ ∧
    (Pause (OnPlayerFinished idle ⟨0, "a"⟩ playing)).1 = true ∧
    .destroy ⟨0, "a"⟩ ∉ (OnPlayerFinished idle ⟨0, "a"⟩ playing).log :=
  ⟨(C30_finished_session_stays idle ⟨0, "a"⟩ playing (by decide) (by decide)).1,
    (C30_finished_session_stays idle ⟨0, "a"⟩ playing (by decide) (by decide)).2.2.2.1,
    (C30_finished_session_stays idle ⟨0, "a"⟩ playing (by decide) (by decide)).2.2.2.2.2
      .Buffering
      [(idle, .Start "a" unity .Immediate true), (idle, .OnPlayerStarted ⟨0, "a"⟩)] rfl⟩

end GaplessTransport
